import Mathlib

/-!
Effective payable time of a jornada.

Shallow embedding of the time-accounting code of
`src/controllers/jornadaController.js`:

* the `jornadas.map(...)` callback of `obtenerJornadas` (lines 173-239), which
  computes `tiempoEfectivoAPagar` by three methods tried in order;
* the `jornadas.map(...)` callback of `obtenerJornadasPaginadas`
  (lines 1016-1096), which computes `horaInicio`, `horaFin` and
  `tiempoEfectivoAPagar` of a virtual jornada from its records of kind
  `Horario Laboral` and `Permiso Laboral`;
* the function `consolidarJornadasDuplicadas` (lines 15-99), as the list of
  the writes it awaits on the `Jornada` collection and the value it returns;
* the duration stored for an activity by `guardarJornadaCompleta`
  (lines 660-676) and by `agregarActividadAJornada` (line 520);
* the loop of `guardarJornadaCompleta` over the activities of a batch and
  the update of `registros` (lines 589-708), with the `Produccion`
  collection as explicit state;
* the counters of `recalcularTiemposEfectivos` (lines 783-823);
* the function `calcularTiempoEfectivoOptimizado` of
  `src/controllers/jornadaController-optimized.js` (lines 88-107).

Dates are their `getTime()` value, an integer number of milliseconds; an
optional field that is `null` or `undefined` in the document is `none`.
-/

namespace JornadaController

/-! ## JavaScript arithmetic used by the controllers -/

/-- Milliseconds added to an end time that is not after its start time:
`24 * 60 * 60 * 1000`. -/
def MS_DIA : Int := 24 * 60 * 60 * 1000

/-- Divisor turning milliseconds into minutes: `1000 * 60`. -/
def MS_MINUTO : Int := 1000 * 60

/-- The call `Math.round(n / d)` for an integer `n` and a positive integer `d`:
the integer nearest to the quotient, a tie going upwards, which is the floor
of `n / d + 1 / 2`. -/
def mathRound (n d : Int) : Int := Int.fdiv (2 * n + d) (2 * d)

/-- The call `Math.floor(n / d)` for integers `n` and `d`. -/
def mathFloor (n d : Int) : Int := Int.fdiv n d

/-- The operator `%` on integers: the remainder takes the sign of the
dividend. -/
def jsMod (a b : Int) : Int := Int.tmod a b

/-- The call `Math.max(a, b)` on integers. -/
def mathMax (a b : Int) : Int := if a < b then b else a

/-- The call `Math.min(...xs)` on a non-empty argument list `x :: xs`. -/
def mathMinLista (x : Int) (xs : List Int) : Int := xs.foldl (fun m y => if y < m then y else m) x

/-- The call `Math.max(...xs)` on a non-empty argument list `x :: xs`. -/
def mathMaxLista (x : Int) (xs : List Int) : Int := xs.foldl (fun m y => if m < y then y else m) x

/-- The expression `v || 0` for an optional integer field: `undefined`,
`null` and `0` all give `0`. -/
def oCero (v : Option Int) : Int :=
  match v with
  | some n => n
  | none => 0

/-- The method `toLowerCase()` on the letters `A` to `Z`; every other
character is left alone. A string is equal to an all-ASCII literal after
`toLowerCase()` exactly when it is after this mapping, because no character
outside `A`-`Z` is lowered to one of the letters of the literals compared
with below. -/
def toLowerCase (s : String) : String := String.mk (s.data.map Char.toLower)

/-! ## Data model -/

/-- An object of the form `{ horas, minutos }` as built by the controllers. -/
structure Tiempo where
  horas : Int
  minutos : Int
  deriving DecidableEq

/-- The stored field `totalTiempoActividades` of a jornada, read through its
`horas` and `minutos`, which count hours and minutes. -/
structure TiempoActividades where
  horas : Nat
  minutos : Nat
  deriving DecidableEq

/-- A populated activity record (`Produccion`) with the fields read by the
time computations. -/
structure Registro where
  tipoTiempo : String
  tipoPermiso : Option String
  horaInicio : Option Int
  horaFin : Option Int
  tiempo : Option Int
  deriving DecidableEq

/-- A jornada document with its `registros` populated, with the fields read
by `obtenerJornadas`. -/
structure Jornada where
  horaInicio : Option Int
  horaFin : Option Int
  registros : List Registro
  totalTiempoActividades : Option TiempoActividades
  deriving DecidableEq

/-! ## `obtenerJornadas` -/

/-- The literal `{ horas: 0, minutos: 0 }`. -/
def tiempoCero : Tiempo := { horas := 0, minutos := 0 }

/-- The object `{ horas: Math.floor(m / 60), minutos: m % 60 }`. -/
def aHorasMinutos (m : Int) : Tiempo :=
  { horas := mathFloor m 60, minutos := jsMod m 60 }

/-- The callback `registro => registro.tipoPermiso === 'permiso NO remunerado'`
(lines 190 and 212). -/
def esPermisoNoRemunerado (registro : Registro) : Bool :=
  decide (registro.tipoPermiso = some "permiso NO remunerado")

/-- The reducer `.reduce((total, registro) => total + (registro.tiempo || 0), 0)`. -/
def sumarTiempos (registros : List Registro) : Int :=
  registros.foldl (fun total registro => total + oCero registro.tiempo) 0

/-- The value `minutosPermisosNoRemunerados` of lines 189-191 and 211-213. -/
def minutosPermisosNoRemunerados (registros : List Registro) : Int :=
  sumarTiempos (registros.filter esPermisoNoRemunerado)

/-- The value `tiempoTotalJornadaMinutos` of lines 179-186, for a start and an
end that are both present. -/
def tiempoTotalJornadaMinutos (inicio finOriginal : Int) : Int :=
  let fin := if finOriginal ≤ inicio then finOriginal + MS_DIA else finOriginal
  mathRound (fin - inicio) MS_MINUTO

/-- The value `tiempoEfectivoAPagar` computed for one jornada by the callback
of `obtenerJornadas` (lines 175-232). -/
def tiempoEfectivoAPagar (jornada : Jornada) : Tiempo :=
  match jornada.horaInicio, jornada.horaFin with
  | some inicio, some finOriginal =>
    let tiempoEfectivoMinutos :=
      tiempoTotalJornadaMinutos inicio finOriginal - minutosPermisosNoRemunerados jornada.registros
    if tiempoEfectivoMinutos > 0 then aHorasMinutos tiempoEfectivoMinutos else tiempoCero
  | _, _ =>
    if jornada.registros.length > 0 then
      let tiempoTotalActividades := sumarTiempos jornada.registros
      let tiempoEfectivoMinutos :=
        tiempoTotalActividades - minutosPermisosNoRemunerados jornada.registros
      if tiempoEfectivoMinutos > 0 then aHorasMinutos tiempoEfectivoMinutos else tiempoCero
    else
      match jornada.totalTiempoActividades with
      | some total =>
        if total.horas > 0 ∨ total.minutos > 0 then
          { horas := (total.horas : Int), minutos := (total.minutos : Int) }
        else tiempoCero
      | none => tiempoCero

/-! ## `obtenerJornadasPaginadas` -/

/-- The fields computed for one virtual jornada by the callback of
`obtenerJornadasPaginadas` (lines 1086-1095). -/
structure JornadaOptimizada where
  horaInicio : Option Int
  horaFin : Option Int
  tiempoEfectivoAPagar : Tiempo
  deriving DecidableEq

/-- The filter `r => r.tipoTiempo === 'Horario Laboral'` (line 1022). -/
def esHorarioLaboral (r : Registro) : Bool := decide (r.tipoTiempo = "Horario Laboral")

/-- The filter `r => r.tipoTiempo === 'Permiso Laboral'` (line 1023). -/
def esPermisoLaboral (r : Registro) : Bool := decide (r.tipoTiempo = "Permiso Laboral")

/-- The filter `r => r.tipoPermiso && r.tipoPermiso.toLowerCase() === literal`
(lines 1048 and 1063). -/
def tipoPermisoEs (literal : String) (r : Registro) : Bool :=
  match r.tipoPermiso with
  | some tipo => decide (tipo ≠ "") && decide (toLowerCase tipo = literal)
  | none => false

/-- The list `horas` of lines 1027-1032: the pairs `(inicio, fin)` of the
records that have both `horaInicio` and `horaFin`. -/
def horasDe (registrosHorarioLaboral : List Registro) : List (Int × Int) :=
  registrosHorarioLaboral.filterMap fun r =>
    match r.horaInicio, r.horaFin with
    | some inicio, some fin => some (inicio, fin)
    | _, _ => none

/-- The value `tiempoPermisosNoRemunerados` of lines 1047-1049. -/
def tiempoPermisosNoRemunerados (registrosPermisoLaboral : List Registro) : Int :=
  sumarTiempos (registrosPermisoLaboral.filter (tipoPermisoEs "permiso no remunerado"))

/-- One step of the reducer of lines 1064-1078: the minutes a paid permit adds
to the running total. -/
def minutosPermiso (permiso : Registro) : Int :=
  match permiso.horaInicio, permiso.horaFin with
  | some inicio, some finOriginal =>
    let fin := if finOriginal ≤ inicio then finOriginal + MS_DIA else finOriginal
    mathRound (fin - inicio) MS_MINUTO
  | _, _ => oCero permiso.tiempo

/-- The value `tiempoPermisosRemunerados` of lines 1062-1078. -/
def tiempoPermisosRemunerados (registrosPermisoLaboral : List Registro) : Int :=
  (registrosPermisoLaboral.filter (tipoPermisoEs "permiso remunerado")).foldl
    (fun total permiso => total + minutosPermiso permiso) 0

/-- The callback of `obtenerJornadasPaginadas` applied to the `registros` of a
virtual jornada (lines 1016-1096). -/
def calcularJornadaOptimizada (registros : List Registro) : JornadaOptimizada :=
  let registrosHorarioLaboral := registros.filter esHorarioLaboral
  let registrosPermisoLaboral := registros.filter esPermisoLaboral
  if registrosHorarioLaboral.length > 0 then
    match horasDe registrosHorarioLaboral with
    | [] => { horaInicio := none, horaFin := none, tiempoEfectivoAPagar := tiempoCero }
    | h :: hs =>
      let horaInicio := mathMinLista h.1 (hs.map Prod.fst)
      let horaFinOriginal := mathMaxLista h.2 (hs.map Prod.snd)
      let horaFin := if horaFinOriginal ≤ horaInicio then horaFinOriginal + MS_DIA else horaFinOriginal
      let tiempoTotalMinutos := mathRound (horaFin - horaInicio) MS_MINUTO
      let tiempoEfectivoMinutos :=
        mathMax 0 (tiempoTotalMinutos - tiempoPermisosNoRemunerados registrosPermisoLaboral)
      { horaInicio := some horaInicio, horaFin := some horaFin,
        tiempoEfectivoAPagar := aHorasMinutos tiempoEfectivoMinutos }
  else if registrosPermisoLaboral.length > 0 then
    { horaInicio := none, horaFin := none,
      tiempoEfectivoAPagar := aHorasMinutos (tiempoPermisosRemunerados registrosPermisoLaboral) }
  else
    { horaInicio := none, horaFin := none, tiempoEfectivoAPagar := tiempoCero }

/-- The query of lines 973-974: the records whose `tipoTiempo` is one of
`'Horario Laboral'` and `'Permiso Laboral'`. -/
def registrosLaborales (todos : List Registro) : List Registro :=
  todos.filter fun r => esHorarioLaboral r || esPermisoLaboral r

/-! ## Spec-side definitions and concrete jornadas -/

/-- The cached fallback in the spec's words: `shift.totalActivityTime`
verbatim, or `{0, 0}` if it is absent. -/
def totalGuardado (jornada : Jornada) : Tiempo :=
  match jornada.totalTiempoActividades with
  | some total => { horas := (total.horas : Int), minutos := (total.minutos : Int) }
  | none => tiempoCero

/-- An unpaid permit of `minutos` minutes, spelled as line 190 compares it. -/
def permisoNoRemunerado (minutos : Int) : Registro :=
  { tipoTiempo := "Permiso Laboral", tipoPermiso := some "permiso NO remunerado",
    horaInicio := none, horaFin := none, tiempo := some minutos }

/-- A shift from 08:00 to 09:00 whose only activity is an unpaid permit of 90
minutes and whose cached total is `{2, 15}`. -/
def jornadaPermisoLargo : Jornada :=
  { horaInicio := some (MS_MINUTO * 480), horaFin := some (MS_MINUTO * 540),
    registros := [permisoNoRemunerado 90],
    totalTiempoActividades := some { horas := 2, minutos := 15 } }

/-- A shift from 22:00 to 02:00 of the same calendar day, without
activities. -/
def jornadaNocturna : Jornada :=
  { horaInicio := some (MS_MINUTO * 1320), horaFin := some (MS_MINUTO * 120),
    registros := [], totalTiempoActividades := none }

/-- The WorkSchedule branch in the spec's words: the boundary runs from the
minimum `startTime` to the maximum `endTime` across the `Horario Laboral`
activities, the end rolled over by 24h when it is not after the start, and
the unpaid-permit minutes are subtracted as in strategy 1. It is `none` when
no such activity has a `startTime` or none has an `endTime`. -/
def tiempoHorarioLaboralSpec (registros : List Registro) : Option Tiempo :=
  let horario := registros.filter esHorarioLaboral
  match horario.filterMap (fun r => r.horaInicio), horario.filterMap (fun r => r.horaFin) with
  | i :: is, f :: fs =>
    let inicio := mathMinLista i is
    let finOriginal := mathMaxLista f fs
    let fin := if finOriginal ≤ inicio then finOriginal + MS_DIA else finOriginal
    let x := max 0 (mathRound (fin - inicio) MS_MINUTO - minutosPermisosNoRemunerados registros)
    some { horas := x / 60, minutos := x % 60 }
  | _, _ => none

/-- Two `Horario Laboral` records: one from 08:00 to 12:00, one that starts
at 06:00 and has no `horaFin`. -/
def registrosSinHoraFin : List Registro :=
  [ { tipoTiempo := "Horario Laboral", tipoPermiso := none,
      horaInicio := some (MS_MINUTO * 480), horaFin := some (MS_MINUTO * 720),
      tiempo := some 240 },
    { tipoTiempo := "Horario Laboral", tipoPermiso := none,
      horaInicio := some (MS_MINUTO * 360), horaFin := none, tiempo := some 1 } ]

/-- One `Permiso Laboral` record of 45 minutes whose `tipoPermiso` is written
in lower case. -/
def registrosMinuscula : List Registro :=
  [ { tipoTiempo := "Permiso Laboral", tipoPermiso := some "permiso no remunerado",
      horaInicio := none, horaFin := none, tiempo := some 45 } ]

/-- One record of 45 minutes whose `tipoPermiso` is `'permiso NO remunerado'`
and whose `tipoTiempo` is not `'Permiso Laboral'`. -/
def registrosOtraCategoria : List Registro :=
  [ { tipoTiempo := "Operación", tipoPermiso := some "permiso NO remunerado",
      horaInicio := none, horaFin := none, tiempo := some 45 } ]

/-- A paid permit of 30 minutes and an unpaid permit of 45 minutes, both
`Permiso Laboral` records without times of their own. -/
def registrosSoloPermisos : List Registro :=
  [ { tipoTiempo := "Permiso Laboral", tipoPermiso := some "permiso remunerado",
      horaInicio := none, horaFin := none, tiempo := some 30 },
    permisoNoRemunerado 45 ]

/-! ## Stored jornadas and `consolidarJornadasDuplicadas` -/

/-- Modelled from the spec: `normalizarFecha` of `utils/manejoFechas`, which is
imported at line 10 and is not among the sources. It strips the time of day
of a date, pinning it to 00:00:00.000 UTC of its calendar date. -/
def normalizarFecha (fecha : Int) : Int := fecha - fecha % MS_DIA

/-- The method `toDateString()`: the calendar day of a date, identified by
the number of the day since the epoch, for a server whose time zone is UTC. -/
def toDateString (fecha : Int) : Int := fecha / MS_DIA

/-- An element of `jornada.registros`: a populated document, which has an
`_id`, or a bare identifier. Identifiers are their `toString()` value. -/
inductive RegistroRef where
  | documento (_id : String)
  | identificador (id : String)
  deriving DecidableEq

/-- The string added to the set at lines 45-49: `registro._id.toString()` for
an object with an `_id`, `registro.toString()` otherwise. -/
def RegistroRef.comoString : RegistroRef → String
  | .documento _id => _id
  | .identificador id => id

/-- A document of the `Jornada` collection. An `_id` is a number; documents
made by `new Jornada(...)` take theirs from a counter. -/
structure JornadaDoc where
  _id : Nat
  operario : String
  fecha : Int
  horaInicio : Option Int
  horaFin : Option Int
  registros : List RegistroRef
  totalTiempoActividades : Option TiempoActividades
  deriving DecidableEq

/-- A write to the `Jornada` collection awaited by
`consolidarJornadasDuplicadas`: `Jornada.findByIdAndDelete(_id)` (line 56),
the `save()` of a new document (line 67) and the `save()` of a document read
before (line 91). -/
inductive Operacion where
  | findByIdAndDelete (_id : Nat)
  | crear (jornada : JornadaDoc)
  | guardar (jornada : JornadaDoc)
  deriving DecidableEq

/-- The effect of one successful write on the collection. -/
def aplicar (almacen : List JornadaDoc) : Operacion → List JornadaDoc
  | .findByIdAndDelete _id => almacen.filter fun d => decide (d._id ≠ _id)
  | .crear jornada => almacen ++ [jornada]
  | .guardar jornada => almacen.map fun d => if d._id = jornada._id then jornada else d

/-- The collection after the first `exitos` writes of `operaciones` succeeded.
When `exitos` is less than the number of writes, the next write threw: it
left the collection as it was and no later write was attempted. -/
def ejecutar (almacen : List JornadaDoc) (operaciones : List Operacion) (exitos : Nat) :
    List JornadaDoc :=
  (operaciones.take exitos).foldl aplicar almacen

/-- The key `claveDate` of lines 22-23. -/
def claveDate (jornada : JornadaDoc) : Int := toDateString (normalizarFecha jornada.fecha)

/-- Lines 25-28: push `jornada` on the array stored under `clave`, which is
created at the end of the object when the key is new. -/
def agregarAGrupo : List (Int × List JornadaDoc) → Int → JornadaDoc →
    List (Int × List JornadaDoc)
  | [], clave, jornada => [(clave, [jornada])]
  | (c, js) :: resto, clave, jornada =>
    if c = clave then (c, js ++ [jornada]) :: resto
    else (c, js) :: agregarAGrupo resto clave jornada

/-- The object `jornadasPorFecha` after the loop of lines 21-29, as the list
of its entries in the order of `Object.entries`. -/
def jornadasPorFecha (jornadas : List JornadaDoc) : List (Int × List JornadaDoc) :=
  jornadas.foldl (fun grupos jornada => agregarAGrupo grupos (claveDate jornada) jornada) []

/-- The array `grupos[clave]` of an object given by its entries, empty when
the key is absent. -/
def grupoDe : List (Int × List JornadaDoc) → Int → List JornadaDoc
  | [], _ => []
  | (c, js) :: resto, clave => if c = clave then js else grupoDe resto clave

/-- The array `Array.from(new Set(xs))` or `[...new Set(xs)]`: the strings of
`xs` in the order of their first occurrence. -/
def arrayFromSet (xs : List String) : List String :=
  xs.foldl (fun set x => if x ∈ set then set else set ++ [x]) []

/-- The array `Array.from(registrosCombinados)` of lines 39-52 and 63. -/
def registrosCombinados (jornadasDelDia : List JornadaDoc) : List String :=
  arrayFromSet (jornadasDelDia.flatMap fun jornada =>
    jornada.registros.map RegistroRef.comoString)

/-- The document built at lines 60-65. -/
def nuevaJornada (operarioId : String) (_id : Nat) (fechaNormalizada : Int)
    (registros : List String) : JornadaDoc :=
  { _id := _id, operario := operarioId, fecha := fechaNormalizada,
    horaInicio := none, horaFin := none,
    registros := registros.map RegistroRef.identificador,
    totalTiempoActividades := some { horas := 0, minutos := 0 } }

/-- What one iteration of the loop of lines 34-96 does: the writes it awaits,
in order, and what it pushes on `jornadasConsolidadas`. -/
structure ResultadoGrupo where
  operaciones : List Operacion
  jornadas : List JornadaDoc
  deriving DecidableEq

/-- The body of the loop of lines 34-96 for one entry of `jornadasPorFecha`;
`idNuevo` is the `_id` that `new Jornada(...)` gives. The consolidated
jornada is returned as `populate` leaves it, its `registros` being
documents. An entry is never empty, so `jornadasDelDia[0]` exists. -/
def procesarGrupo (operarioId : String) (idNuevo : Nat) (jornadasDelDia : List JornadaDoc) :
    ResultadoGrupo :=
  if jornadasDelDia.length > 1 then
    match jornadasDelDia.head? with
    | some primera =>
      let fechaNormalizada := normalizarFecha primera.fecha
      let nueva :=
        nuevaJornada operarioId idNuevo fechaNormalizada (registrosCombinados jornadasDelDia)
      { operaciones :=
          jornadasDelDia.map (fun jornada => Operacion.findByIdAndDelete jornada._id)
            ++ [Operacion.crear nueva],
        jornadas :=
          [{ nueva with
              registros := (registrosCombinados jornadasDelDia).map RegistroRef.documento }] }
    | none => { operaciones := [], jornadas := [] }
  else
    match jornadasDelDia.head? with
    | some jornada =>
      let fechaNormalizada := normalizarFecha jornada.fecha
      if jornada.fecha ≠ fechaNormalizada then
        { operaciones := [Operacion.guardar { jornada with fecha := fechaNormalizada }],
          jornadas := [{ jornada with fecha := fechaNormalizada }] }
      else { operaciones := [], jornadas := [jornada] }
    | none => { operaciones := [], jornadas := [] }

/-- The loop of lines 34-96 over the entries of `jornadasPorFecha`; the
counter of new `_id`s advances with each document made. -/
def procesarGrupos (operarioId : String) : Nat → List (Int × List JornadaDoc) →
    List ResultadoGrupo
  | _, [] => []
  | idNuevo, (_, jornadasDelDia) :: resto =>
    procesarGrupo operarioId idNuevo jornadasDelDia ::
      procesarGrupos operarioId (if jornadasDelDia.length > 1 then idNuevo + 1 else idNuevo)
        resto

/-- The call `.sort((a, b) => new Date(b.fecha) - new Date(a.fecha))` of line
98: a stable sort by `fecha`, latest first. -/
def ordenarPorFecha (jornadas : List JornadaDoc) : List JornadaDoc :=
  jornadas.insertionSort fun a b => b.fecha ≤ a.fecha

/-- A run of `consolidarJornadasDuplicadas`: the writes it awaits, in order,
and the value it returns when none of them fails. -/
structure Consolidacion where
  operaciones : List Operacion
  resultado : List JornadaDoc
  deriving DecidableEq

/-- The function `consolidarJornadasDuplicadas(operarioId, jornadas)` of lines
15-99; `idNuevo` is the first `_id` that `new Jornada(...)` gives. -/
def consolidarJornadasDuplicadas (operarioId : String) (idNuevo : Nat)
    (jornadas : List JornadaDoc) : Consolidacion :=
  if jornadas.length ≤ 1 then { operaciones := [], resultado := jornadas }
  else
    let resultados := procesarGrupos operarioId idNuevo (jornadasPorFecha jornadas)
    { operaciones := resultados.flatMap fun r => r.operaciones,
      resultado := ordenarPorFecha (resultados.flatMap fun r => r.jornadas) }

/-! ## Durations stored by the ingestion operations -/

/-- The value `tiempoCalculado` of lines 660-676 of `guardarJornadaCompleta`,
stored as `tiempo` at line 691. The dates `new Date(actividad.horaInicio)` and
`new Date(actividad.horaFin)` are `none` when they are invalid: every
comparison with an invalid date is false. -/
def tiempoCalculado (tiempo horaInicio horaFin : Option Int) : Int :=
  let tiempoInicial := oCero tiempo
  if tiempoInicial = 0 then
    match horaInicio, horaFin with
    | some inicio, some finOriginal =>
      let fin := if finOriginal ≤ inicio then finOriginal + MS_DIA else finOriginal
      if fin > inicio then mathRound (fin - inicio) MS_MINUTO else 1
    | _, _ => 1
  else tiempoInicial

/-- The value `tiempo || 0` stored as `tiempo` at line 520 of
`agregarActividadAJornada`. -/
def tiempoActividadAgregada (tiempo : Option Int) : Int := oCero tiempo

/-- The duration rule in the spec's words: a positive supplied `tiempo` is
used; otherwise the duration is `round((end - start)/60000)`, the end rolled
over by 24h when it is not after the start, and `1` when that value is not
positive or cannot be computed. -/
def duracionSegunSpec (tiempo horaInicio horaFin : Option Int) : Int :=
  if oCero tiempo > 0 then oCero tiempo
  else
    match horaInicio, horaFin with
    | some inicio, some finOriginal =>
      let fin := if finOriginal ≤ inicio then finOriginal + MS_DIA else finOriginal
      if mathRound (fin - inicio) MS_MINUTO > 0 then mathRound (fin - inicio) MS_MINUTO else 1
    | _, _ => 1

/-! ## Concrete jornadas for the consolidation -/

/-- A stored jornada of operator `op1` with the given `_id`, `fecha` and
bare identifiers in `registros`, and boundary times on that day. -/
def jornadaDe (_id : Nat) (fecha : Int) (registros : List String) : JornadaDoc :=
  { _id := _id, operario := "op1", fecha := fecha,
    horaInicio := some (fecha + MS_MINUTO * 480), horaFin := some (fecha + MS_MINUTO * 1020),
    registros := registros.map RegistroRef.identificador,
    totalTiempoActividades := some { horas := 1, minutos := 0 } }

/-- Three jornadas on day 19000 with the activity sets `{a, b}`, `{b, c}` and
`{d}`, the second stored with a time of day and with `b` populated. -/
def tresJornadasMismoDia : List JornadaDoc :=
  [ jornadaDe 1 (MS_DIA * 19000) ["a", "b"],
    { jornadaDe 2 (MS_DIA * 19000 + MS_MINUTO * 300) [] with
      registros := [RegistroRef.documento "b", RegistroRef.identificador "c"] },
    jornadaDe 3 (MS_DIA * 19000) ["d"] ]

/-- Two jornadas on days 19000 and 19001, the first stored with a time of
day. -/
def dosJornadasDistintoDia : List JornadaDoc :=
  [ jornadaDe 1 (MS_DIA * 19000 + MS_MINUTO * 300) ["a"],
    jornadaDe 2 (MS_DIA * 19001) ["b"] ]

/-- One jornada on day 19000 stored with a time of day, 05:00. -/
def unaJornadaSinNormalizar : List JornadaDoc :=
  [ jornadaDe 1 (MS_DIA * 19000 + MS_MINUTO * 300) ["a"] ]

/-! ## `guardarJornadaCompleta`: the activities of a batch -/

/-- A field of an activity input that should hold an array of identifiers:
absent (`undefined`, `null`), a value that is not an array, or an array. -/
inductive CampoIds where
  | ausente
  | noArreglo
  | arreglo (ids : List String)
  deriving DecidableEq

/-- A date field of an activity input: absent, a value of which `new Date`
makes an invalid date, or a valid date in milliseconds. -/
inductive FechaEntrada where
  | ausente
  | invalida
  | valida (ms : Int)
  deriving DecidableEq

/-- The date `new Date(campo)` of a field that is present: `none` is an
invalid date. -/
def FechaEntrada.comoDate : FechaEntrada → Option Int
  | .valida ms => some ms
  | _ => none

/-- An element of `actividades` in the body of the request. A string field
that is absent or empty is `none`. -/
structure ActividadEntrada where
  oti : Option String
  areaProduccion : Option String
  maquina : CampoIds
  procesos : CampoIds
  insumos : CampoIds
  tipoTiempo : Option String
  tipoPermiso : Option String
  horaInicio : FechaEntrada
  horaFin : FechaEntrada
  tiempo : Option Int
  deriving DecidableEq

/-- The responses with status 400 returned from inside the loop of lines
592-697, by the line that sends them. -/
inductive ErrorActividad where
  | faltanCamposRequeridos
  | errorAlProcesarOti (numeroOti : String)
  | areaProduccionInvalida
  | maquinaNoEsArregloNoVacio
  | maquinaInvalida (maquinaId : String)
  | procesosNoEsArregloNoVacio
  | procesoInvalido (procesoId : String)
  | insumosNoEsArregloNoVacio
  | insumoInvalido (insumoId : String)
  deriving DecidableEq

/-- A document of the `Produccion` collection as built at lines 679-694. -/
structure ProduccionDoc where
  _id : String
  operario : String
  fecha : Int
  oti : String
  procesos : List String
  areaProduccion : String
  maquina : List String
  insumos : List String
  tipoTiempo : String
  tipoPermiso : Option String
  horaInicio : Option Int
  horaFin : Option Int
  tiempo : Int
  jornada : Nat
  deriving DecidableEq

deriving instance DecidableEq for Except

/-- The function `verificarYCrearOti` of lines 598-617. `isValid` is
`mongoose.Types.ObjectId.isValid`; `buscarOCrearOti` is the lookup or
creation in the `Oti` collection, `none` when it threw. -/
def verificarYCrearOti (isValid : String → Bool) (buscarOCrearOti : String → Option String)
    (numeroOti : String) : Option String :=
  if isValid numeroOti && decide (numeroOti.length = 24) then some numeroOti
  else buscarOCrearOti numeroOti

/-- The check of an array of identifiers at lines 631-638, 641-648 and
650-657: the array when it is a non-empty array of valid identifiers, else
the error for a value that is no non-empty array or for the first invalid
identifier. -/
def validarIds (isValid : String → Bool) (campo : CampoIds)
    (noEsArreglo : ErrorActividad) (invalido : String → ErrorActividad) :
    Except ErrorActividad (List String) :=
  match campo with
  | .arreglo ids =>
    if ids.length = 0 then .error noEsArreglo
    else
      match ids.find? fun a => !isValid a with
      | some a => .error (invalido a)
      | none => .ok ids
  | _ => .error noEsArreglo

/-- One iteration of the loop of lines 592-697 up to the document built at
lines 679-694, with the `_id` that `new Produccion(...)` gives: the document,
or the response sent by the first check that fails. -/
def construirRegistro (isValid : String → Bool) (buscarOCrearOti : String → Option String)
    (jornada : JornadaDoc) (_id : String) (actividad : ActividadEntrada) :
    Except ErrorActividad ProduccionDoc :=
  match actividad.oti, actividad.areaProduccion, actividad.tipoTiempo with
  | some oti, some areaProduccion, some tipoTiempo =>
    if actividad.maquina = CampoIds.ausente ∨ actividad.horaInicio = FechaEntrada.ausente
        ∨ actividad.horaFin = FechaEntrada.ausente then
      .error ErrorActividad.faltanCamposRequeridos
    else
      match verificarYCrearOti isValid buscarOCrearOti oti with
      | none => .error (ErrorActividad.errorAlProcesarOti oti)
      | some otiId =>
        if !isValid areaProduccion then .error ErrorActividad.areaProduccionInvalida
        else
          match validarIds isValid actividad.maquina ErrorActividad.maquinaNoEsArregloNoVacio
              ErrorActividad.maquinaInvalida with
          | .error e => .error e
          | .ok maquina =>
            match validarIds isValid actividad.procesos
                ErrorActividad.procesosNoEsArregloNoVacio ErrorActividad.procesoInvalido with
            | .error e => .error e
            | .ok procesos =>
              match validarIds isValid actividad.insumos
                  ErrorActividad.insumosNoEsArregloNoVacio ErrorActividad.insumoInvalido with
              | .error e => .error e
              | .ok insumos =>
                .ok { _id := _id, operario := jornada.operario, fecha := jornada.fecha,
                      oti := otiId, procesos := procesos, areaProduccion := areaProduccion,
                      maquina := maquina, insumos := insumos, tipoTiempo := tipoTiempo,
                      tipoPermiso := actividad.tipoPermiso,
                      horaInicio := actividad.horaInicio.comoDate,
                      horaFin := actividad.horaFin.comoDate,
                      tiempo := tiempoCalculado actividad.tiempo actividad.horaInicio.comoDate
                        actividad.horaFin.comoDate,
                      jornada := jornada._id }
  | _, _, _ => .error ErrorActividad.faltanCamposRequeridos

/-- The loop of lines 592-697 from a given point: `producciones` is the
`Produccion` collection and `idsNuevosRegistros` the array of that name. Each
activity is checked and its document saved (line 695) before the next
activity is looked at; the `_id` of the n-th document made is `idDe n`. The
result is the collection and either the response of the first failing check
or the final `idsNuevosRegistros`. -/
def registrarActividades (isValid : String → Bool) (buscarOCrearOti : String → Option String)
    (idDe : Nat → String) (jornada : JornadaDoc) :
    List ActividadEntrada → List ProduccionDoc → List String →
      List ProduccionDoc × Except ErrorActividad (List String)
  | [], producciones, idsNuevosRegistros => (producciones, .ok idsNuevosRegistros)
  | actividad :: resto, producciones, idsNuevosRegistros =>
    match construirRegistro isValid buscarOCrearOti jornada (idDe idsNuevosRegistros.length)
        actividad with
    | .error e => (producciones, .error e)
    | .ok nuevoRegistro =>
      registrarActividades isValid buscarOCrearOti idDe jornada resto
        (producciones ++ [nuevoRegistro]) (idsNuevosRegistros ++ [nuevoRegistro._id])

/-- Lines 589-708 of `guardarJornadaCompleta`, for the jornada found or made
at lines 565-587: the `Produccion` collection afterwards and either the
response of the first failing check or the jornada as saved at line 708,
its `registros` being `todosLosRegistrosUnicos`. -/
def guardarActividades (isValid : String → Bool) (buscarOCrearOti : String → Option String)
    (idDe : Nat → String) (jornada : JornadaDoc) (actividades : List ActividadEntrada)
    (producciones : List ProduccionDoc) : List ProduccionDoc × Except ErrorActividad JornadaDoc :=
  match registrarActividades isValid buscarOCrearOti idDe jornada actividades producciones [] with
  | (guardadas, .error e) => (guardadas, .error e)
  | (guardadas, .ok idsNuevosRegistros) =>
    (guardadas,
      .ok { jornada with
            registros := (arrayFromSet
              (jornada.registros.map RegistroRef.comoString ++ idsNuevosRegistros)).map
                RegistroRef.identificador })

/-! ## Inline normalization, `recalcularTiemposEfectivos`, the optimized calculator -/

/-- The statements `d = new Date(fecha); d.setUTCHours(0, 0, 0, 0)` of lines
109-110 and 493-494, for a valid date: the start of its UTC day. -/
def setUTCHoursCero (fecha : Int) : Int := fecha - fecha % MS_DIA

/-- What the loop of lines 788-811 sees of one jornada: whether
`await jornada.save()` succeeded, and the fields `solapamientos`,
`tiempoSumado` and `tiempoEfectivo` of its `totalTiempoActividades` after
the save. -/
structure JornadaRecalculada where
  guardada : Bool
  solapamientos : Bool
  tiempoSumado : Option Int
  tiempoEfectivo : Option Int
  deriving DecidableEq

/-- The object `estadisticas` of lines 813-823 and 775-779. -/
structure Estadisticas where
  totalJornadas : Nat
  jornadasActualizadas : Nat
  errores : Nat
  jornadasConSolapamientos : Nat
  tiempoTotalRecuperado : Int
  deriving DecidableEq

/-- One iteration of the loop of lines 788-811 on the counters. -/
def recalcularUna (e : Estadisticas) (jornada : JornadaRecalculada) : Estadisticas :=
  if jornada.guardada then
    if jornada.solapamientos then
      { e with
        jornadasActualizadas := e.jornadasActualizadas + 1,
        jornadasConSolapamientos := e.jornadasConSolapamientos + 1,
        tiempoTotalRecuperado := e.tiempoTotalRecuperado
          + (oCero jornada.tiempoSumado - oCero jornada.tiempoEfectivo) }
    else { e with jornadasActualizadas := e.jornadasActualizadas + 1 }
  else { e with errores := e.errores + 1 }

/-- The status and the `estadisticas` of the response of
`recalcularTiemposEfectivos` (lines 766-831). -/
def recalcularTiemposEfectivos (jornadas : List JornadaRecalculada) : Nat × Estadisticas :=
  if jornadas.length = 0 then
    (404, { totalJornadas := 0, jornadasActualizadas := 0, errores := 0,
            jornadasConSolapamientos := 0, tiempoTotalRecuperado := 0 })
  else
    (200, jornadas.foldl recalcularUna
      { totalJornadas := jornadas.length, jornadasActualizadas := 0, errores := 0,
        jornadasConSolapamientos := 0, tiempoTotalRecuperado := 0 })

/-- The function `calcularTiempoEfectivoOptimizado` of
`jornadaController-optimized.js` (lines 88-107). -/
def calcularTiempoEfectivoOptimizado (jornada : Jornada) : Tiempo :=
  match jornada.horaInicio, jornada.horaFin with
  | some inicio, some finOriginal =>
    let fin := if finOriginal ≤ inicio then finOriginal + MS_DIA else finOriginal
    let tiempoTotalMinutos := mathRound (fin - inicio) MS_MINUTO
    { horas := mathFloor tiempoTotalMinutos 60, minutos := jsMod tiempoTotalMinutos 60 }
  | _, _ =>
    match jornada.totalTiempoActividades with
    | some total => { horas := (total.horas : Int), minutos := (total.minutos : Int) }
    | none => { horas := 0, minutos := 0 }

/-- The read of a jornada with `populate('registros')`: each reference is
replaced by the record that `buscar` finds for its identifier, and a
reference without a record is dropped. -/
def poblar (buscar : String → Option Registro) (jornada : JornadaDoc) : Jornada :=
  { horaInicio := jornada.horaInicio, horaFin := jornada.horaFin,
    registros := jornada.registros.filterMap fun r => buscar r.comoString,
    totalTiempoActividades := jornada.totalTiempoActividades }

/-- An `{ horas, minutos }` value is well formed for the minute count `x`. -/
def bienFormado (t : Tiempo) (x : Int) : Prop :=
  0 ≤ t.horas ∧ 0 ≤ t.minutos ∧ t.minutos < 60 ∧ t.horas * 60 + t.minutos = x

/-! ## Concrete inputs for the batch and the calculators -/

/-- The check of identifiers used in the examples: a string of 24
characters. -/
def isValidEjemplo (s : String) : Bool := decide (s.length = 24)

/-- A valid identifier made of 24 times the character `c`. -/
def idEjemplo (c : Char) : String := String.mk (List.replicate 24 c)

/-- An activity input that passes every check, from 08:00 to 09:00. -/
def actividadValida : ActividadEntrada :=
  { oti := some (idEjemplo 'a'), areaProduccion := some (idEjemplo 'b'),
    maquina := CampoIds.arreglo [idEjemplo 'c'], procesos := CampoIds.arreglo [idEjemplo 'd'],
    insumos := CampoIds.arreglo [idEjemplo 'e'], tipoTiempo := some "Operación",
    tipoPermiso := none, horaInicio := FechaEntrada.valida (MS_MINUTO * 480),
    horaFin := FechaEntrada.valida (MS_MINUTO * 540), tiempo := none }

/-- The same activity with a second machine identifier that is not valid. -/
def actividadMaquinaInvalida : ActividadEntrada :=
  { actividadValida with maquina := CampoIds.arreglo [idEjemplo 'c', "xyz"] }

/-- The `_id`s given to new documents in the examples: `r0`, `r1`, ... -/
def idDeEjemplo (n : Nat) : String := "r" ++ toString n

/-- The jornada of the examples, which already references `p1` and `p2`. -/
def jornadaConRegistros : JornadaDoc := jornadaDe 1 (MS_DIA * 19000) ["p1", "p2"]

/-- A paid permit whose `horaFin` is 25 hours and a half before its
`horaInicio`, stored with a `tiempo` of 1 minute. -/
def registrosPermisoInvertido : List Registro :=
  [ { tipoTiempo := "Permiso Laboral", tipoPermiso := some "permiso remunerado",
      horaInicio := some (MS_MINUTO * 3000), horaFin := some (MS_MINUTO * 1470),
      tiempo := some 1 } ]

/-- A shift whose `horaFin` is 25 hours and a half before its `horaInicio`,
without activities. -/
def jornadaInvertida : Jornada :=
  { horaInicio := some (MS_MINUTO * 3000), horaFin := some (MS_MINUTO * 1470),
    registros := [], totalTiempoActividades := none }

/-! ## Arithmetic lemmas -/

theorem foldl_suma_eq {α : Type} (f : α → Int) (l : List α) (acc : Int) :
    l.foldl (fun total x => total + f x) acc = acc + (l.map f).sum := by
  induction l generalizing acc with
  | nil => simp
  | cons x xs ih => simp [List.foldl_cons, ih, add_assoc]

theorem sumarTiempos_eq_sum (registros : List Registro) :
    sumarTiempos registros = (registros.map fun r => oCero r.tiempo).sum := by
  unfold sumarTiempos
  rw [foldl_suma_eq (fun r : Registro => oCero r.tiempo) registros 0]
  simp

theorem mathRound_minutos_exactos (k : Int) : mathRound (MS_MINUTO * k) MS_MINUTO = k := by
  unfold mathRound MS_MINUTO
  rw [Int.fdiv_eq_ediv _ (by norm_num)]
  omega

theorem aHorasMinutos_of_nonneg (m : Int) (hm : 0 ≤ m) :
    aHorasMinutos m = { horas := m / 60, minutos := m % 60 } := by
  unfold aHorasMinutos mathFloor jsMod
  rw [Int.fdiv_eq_ediv _ (by norm_num), Int.tmod_eq_emod hm (by norm_num)]

theorem aHorasMinutos_cero : aHorasMinutos 0 = tiempoCero := by
  decide

/-- Both branches of `if m > 0 then { floor, % } else { 0, 0 }` are the
conversion of `max 0 m`. -/
theorem si_positivo_eq_max (m : Int) :
    (if m > 0 then aHorasMinutos m else tiempoCero)
      = { horas := max 0 m / 60, minutos := max 0 m % 60 } := by
  by_cases h : m > 0
  · rw [if_pos h, max_eq_right (le_of_lt h), aHorasMinutos_of_nonneg m (le_of_lt h)]
  · rw [if_neg h, max_eq_left (not_lt.mp h)]
    rfl

theorem tiempoEfectivoAPagar_metodo1 (j : Jornada) (inicio fin : Int)
    (hi : j.horaInicio = some inicio) (hf : j.horaFin = some fin) :
    tiempoEfectivoAPagar j =
      (if tiempoTotalJornadaMinutos inicio fin - minutosPermisosNoRemunerados j.registros > 0 then
        aHorasMinutos
          (tiempoTotalJornadaMinutos inicio fin - minutosPermisosNoRemunerados j.registros)
      else tiempoCero) := by
  unfold tiempoEfectivoAPagar
  rw [hi, hf]

theorem tiempoEfectivoAPagar_sin_horas (j : Jornada)
    (h : j.horaInicio = none ∨ j.horaFin = none) :
    tiempoEfectivoAPagar j =
      (if j.registros.length > 0 then
        (if sumarTiempos j.registros - minutosPermisosNoRemunerados j.registros > 0 then
          aHorasMinutos (sumarTiempos j.registros - minutosPermisosNoRemunerados j.registros)
        else tiempoCero)
      else
        match j.totalTiempoActividades with
        | some total =>
          if total.horas > 0 ∨ total.minutos > 0 then
            { horas := (total.horas : Int), minutos := (total.minutos : Int) }
          else tiempoCero
        | none => tiempoCero) := by
  unfold tiempoEfectivoAPagar
  rcases h with h | h
  · rw [h]
  · rw [h]
    cases j.horaInicio <;> rfl

/-! ## Claims about `obtenerJornadas` -/

/-- C1: with both boundary times present, on whole-minute timestamps
`startTime < endTime`, the effective payable time is `x = max(0, elapsed - U)`
as `{floor(x/60), x mod 60}`, where `elapsed` is the number of minutes between
the two times and `U` the sum of the durations of the unpaid-permit
activities; it is `{0, 0}` whenever `U >= elapsed`. -/
theorem C1_boundary_strategy (j : Jornada) (a b : Int)
    (hi : j.horaInicio = some (MS_MINUTO * a)) (hf : j.horaFin = some (MS_MINUTO * b))
    (hab : a < b) :
    tiempoEfectivoAPagar j =
        { horas := max 0 ((b - a) - ((j.registros.filter esPermisoNoRemunerado).map
              fun r => oCero r.tiempo).sum) / 60,
          minutos := max 0 ((b - a) - ((j.registros.filter esPermisoNoRemunerado).map
              fun r => oCero r.tiempo).sum) % 60 }
      ∧ (((j.registros.filter esPermisoNoRemunerado).map fun r => oCero r.tiempo).sum ≥ b - a →
          tiempoEfectivoAPagar j = { horas := 0, minutos := 0 }) := by
  have helapsed : tiempoTotalJornadaMinutos (MS_MINUTO * a) (MS_MINUTO * b) = b - a := by
    unfold tiempoTotalJornadaMinutos
    have hlt : ¬ (MS_MINUTO * b ≤ MS_MINUTO * a) := by
      unfold MS_MINUTO
      omega
    simp only [hlt, if_false]
    rw [← mul_sub, mathRound_minutos_exactos]
  have hmain := tiempoEfectivoAPagar_metodo1 j _ _ hi hf
  rw [helapsed, si_positivo_eq_max] at hmain
  unfold minutosPermisosNoRemunerados at hmain
  rw [sumarTiempos_eq_sum] at hmain
  refine ⟨hmain, fun hU => ?_⟩
  rw [hmain, max_eq_left (by omega)]
  rfl

/-- C1 at a shift from 08:00 to 17:00 with one unpaid permit of 45 minutes and
one other activity: 8 hours 15 minutes. -/
theorem C1_boundary_strategy_witness :
    tiempoEfectivoAPagar
        { horaInicio := some (MS_MINUTO * 480), horaFin := some (MS_MINUTO * 1020),
          registros :=
            [ { tipoTiempo := "Permiso Laboral", tipoPermiso := some "permiso NO remunerado",
                horaInicio := none, horaFin := none, tiempo := some 45 },
              { tipoTiempo := "Operación", tipoPermiso := none,
                horaInicio := none, horaFin := none, tiempo := some 120 } ],
          totalTiempoActividades := none }
      = { horas := 8, minutos := 15 } :=
  (C1_boundary_strategy
    { horaInicio := some (MS_MINUTO * 480), horaFin := some (MS_MINUTO * 1020),
      registros :=
        [ { tipoTiempo := "Permiso Laboral", tipoPermiso := some "permiso NO remunerado",
            horaInicio := none, horaFin := none, tiempo := some 45 },
          { tipoTiempo := "Operación", tipoPermiso := none,
            horaInicio := none, horaFin := none, tiempo := some 120 } ],
      totalTiempoActividades := none } 480 1020 rfl rfl (by decide)).1.trans (by decide)

/-- C2: with both boundary times present and `endTime <= startTime`, the
elapsed time is computed as `(endTime + 24h) - startTime`; the effective time
is never negative; a shift from 22:00 to 02:00 has 240 elapsed minutes and,
with no unpaid permit, the effective time `{4, 0}`. -/
theorem C2_overnight_rollover (j : Jornada) (inicio fin : Int)
    (hi : j.horaInicio = some inicio) (hf : j.horaFin = some fin) (hle : fin ≤ inicio) :
    tiempoTotalJornadaMinutos inicio fin = mathRound ((fin + MS_DIA) - inicio) MS_MINUTO
      ∧ tiempoEfectivoAPagar j =
          { horas := max 0 (mathRound ((fin + MS_DIA) - inicio) MS_MINUTO -
              ((j.registros.filter esPermisoNoRemunerado).map fun r => oCero r.tiempo).sum) / 60,
            minutos := max 0 (mathRound ((fin + MS_DIA) - inicio) MS_MINUTO -
              ((j.registros.filter esPermisoNoRemunerado).map fun r => oCero r.tiempo).sum) % 60 }
      ∧ 0 ≤ (tiempoEfectivoAPagar j).horas ∧ 0 ≤ (tiempoEfectivoAPagar j).minutos
      ∧ tiempoTotalJornadaMinutos (MS_MINUTO * 1320) (MS_MINUTO * 120) = 240
      ∧ (∀ (registros : List Registro) (total : Option TiempoActividades),
          registros.filter esPermisoNoRemunerado = [] →
          tiempoEfectivoAPagar
              { horaInicio := some (MS_MINUTO * 1320), horaFin := some (MS_MINUTO * 120),
                registros := registros, totalTiempoActividades := total }
            = { horas := 4, minutos := 0 }) := by
  have helapsed : tiempoTotalJornadaMinutos inicio fin
      = mathRound ((fin + MS_DIA) - inicio) MS_MINUTO := by
    unfold tiempoTotalJornadaMinutos
    simp only [hle, if_true]
  have hmain := tiempoEfectivoAPagar_metodo1 j _ _ hi hf
  rw [helapsed, si_positivo_eq_max] at hmain
  unfold minutosPermisosNoRemunerados at hmain
  rw [sumarTiempos_eq_sum] at hmain
  have h240 : tiempoTotalJornadaMinutos (MS_MINUTO * 1320) (MS_MINUTO * 120) = 240 := by decide
  refine ⟨helapsed, hmain, ?_, ?_, h240, ?_⟩
  · rw [hmain]
    exact Int.ediv_nonneg (le_max_left _ _) (by norm_num)
  · rw [hmain]
    exact Int.emod_nonneg _ (by norm_num)
  · intro registros total hvacio
    rw [tiempoEfectivoAPagar_metodo1 _ _ _ rfl rfl, h240]
    simp only [minutosPermisosNoRemunerados, hvacio]
    decide

/-- C2 at the shift from 22:00 to 02:00 without activities: 240 elapsed
minutes and the effective time `{4, 0}`. -/
theorem C2_overnight_rollover_witness :
    tiempoTotalJornadaMinutos (MS_MINUTO * 1320) (MS_MINUTO * 120) = 240
      ∧ tiempoEfectivoAPagar jornadaNocturna = { horas := 4, minutos := 0 } :=
  have h := C2_overnight_rollover jornadaNocturna (MS_MINUTO * 1320) (MS_MINUTO * 120)
    rfl rfl (by decide)
  ⟨h.2.2.2.2.1, h.2.2.2.2.2 [] none rfl⟩

/-- C3: for a shift lacking at least one boundary time and having a non-empty
activity list, the effective payable time is `x = max(0, total - unpaid)` as
`{floor(x/60), x mod 60}`, `total` being the sum of the durations of all
activities and `unpaid` the sum over the unpaid-permit activities. -/
theorem C3_activity_sum_fallback (j : Jornada)
    (hfalta : j.horaInicio = none ∨ j.horaFin = none) (hne : j.registros ≠ []) :
    tiempoEfectivoAPagar j =
      { horas := max 0 ((j.registros.map fun r => oCero r.tiempo).sum -
            ((j.registros.filter esPermisoNoRemunerado).map fun r => oCero r.tiempo).sum) / 60,
        minutos := max 0 ((j.registros.map fun r => oCero r.tiempo).sum -
            ((j.registros.filter esPermisoNoRemunerado).map fun r => oCero r.tiempo).sum) % 60 } := by
  have hlen : j.registros.length > 0 := List.length_pos.mpr hne
  rw [tiempoEfectivoAPagar_sin_horas j hfalta, if_pos hlen, si_positivo_eq_max]
  unfold minutosPermisosNoRemunerados
  rw [sumarTiempos_eq_sum, sumarTiempos_eq_sum]

/-- C3 at a shift with an end time only, one activity of 100 minutes and one
unpaid permit of 30 minutes: 1 hour 40 minutes. -/
theorem C3_activity_sum_fallback_witness :
    tiempoEfectivoAPagar
        { horaInicio := none, horaFin := some (MS_MINUTO * 1020),
          registros :=
            [ { tipoTiempo := "Operación", tipoPermiso := none,
                horaInicio := none, horaFin := none, tiempo := some 100 },
              permisoNoRemunerado 30 ],
          totalTiempoActividades := some { horas := 9, minutos := 9 } }
      = { horas := 1, minutos := 40 } :=
  (C3_activity_sum_fallback
    { horaInicio := none, horaFin := some (MS_MINUTO * 1020),
      registros :=
        [ { tipoTiempo := "Operación", tipoPermiso := none,
            horaInicio := none, horaFin := none, tiempo := some 100 },
          permisoNoRemunerado 30 ],
      totalTiempoActividades := some { horas := 9, minutos := 9 } }
    (Or.inl rfl) (by decide)).trans (by decide)

/-- C4 as stated fails: the shift from 08:00 to 09:00 with one unpaid permit
of 90 minutes has both boundary times, its unpaid minutes exceed the 60
elapsed minutes, its activity sum less the unpaid minutes is `0`, and its
cached total is `{2, 15}`; the effective payable time is `{0, 0}`, not the
cached total. -/
theorem C4_cached_fallback_counterexample :
    jornadaPermisoLargo.horaInicio = some (MS_MINUTO * 480)
      ∧ jornadaPermisoLargo.horaFin = some (MS_MINUTO * 540)
      ∧ tiempoTotalJornadaMinutos (MS_MINUTO * 480) (MS_MINUTO * 540) = 60
      ∧ minutosPermisosNoRemunerados jornadaPermisoLargo.registros = 90
      ∧ sumarTiempos jornadaPermisoLargo.registros
          - minutosPermisosNoRemunerados jornadaPermisoLargo.registros = 0
      ∧ totalGuardado jornadaPermisoLargo = { horas := 2, minutos := 15 }
      ∧ tiempoEfectivoAPagar jornadaPermisoLargo = { horas := 0, minutos := 0 }
      ∧ tiempoEfectivoAPagar jornadaPermisoLargo ≠ totalGuardado jornadaPermisoLargo := by
  decide

/-- C4 amended: when the strategy that applies to a shift yields no positive
result, the effective payable time is `{0, 0}` if both boundary times are
present or the activity list is non-empty, whatever the cached total is, and
it is the cached total verbatim, or `{0, 0}` if absent, only when a boundary
time is missing and the activity list is empty. -/
theorem C4_cached_fallback_amended (j : Jornada)
    (hmetodo1 : ∀ inicio fin, j.horaInicio = some inicio → j.horaFin = some fin →
      tiempoTotalJornadaMinutos inicio fin - minutosPermisosNoRemunerados j.registros ≤ 0)
    (hmetodo2 : (j.horaInicio = none ∨ j.horaFin = none) →
      sumarTiempos j.registros - minutosPermisosNoRemunerados j.registros ≤ 0) :
    tiempoEfectivoAPagar j =
      if (j.horaInicio ≠ none ∧ j.horaFin ≠ none) ∨ j.registros ≠ [] then
        { horas := 0, minutos := 0 }
      else totalGuardado j := by
  by_cases hfalta : j.horaInicio = none ∨ j.horaFin = none
  · have hno : ¬ (j.horaInicio ≠ none ∧ j.horaFin ≠ none) := by
      rintro ⟨h1, h2⟩
      rcases hfalta with h | h
      · exact h1 h
      · exact h2 h
    rw [tiempoEfectivoAPagar_sin_horas j hfalta]
    by_cases hne : j.registros = []
    · have hlen : ¬ (j.registros.length > 0) := by simp [hne]
      rw [if_neg hlen, if_neg (by simp [hno, hne])]
      unfold totalGuardado
      cases j.totalTiempoActividades with
      | none => rfl
      | some total =>
        by_cases hpos : total.horas > 0 ∨ total.minutos > 0
        · simp only [hpos, if_true]
        · simp only [hpos, if_false]
          have h0 : total.horas = 0 ∧ total.minutos = 0 := by omega
          simp [tiempoCero, h0.1, h0.2]
    · have hlen : j.registros.length > 0 := List.length_pos.mpr hne
      rw [if_pos hlen, if_neg (not_lt.mpr (hmetodo2 hfalta)), if_pos (Or.inr hne)]
      rfl
  · have hi : ∃ inicio, j.horaInicio = some inicio := by
      cases h : j.horaInicio with
      | none => exact absurd (Or.inl h) hfalta
      | some inicio => exact ⟨inicio, rfl⟩
    have hf : ∃ fin, j.horaFin = some fin := by
      cases h : j.horaFin with
      | none => exact absurd (Or.inr h) hfalta
      | some fin => exact ⟨fin, rfl⟩
    obtain ⟨inicio, hi⟩ := hi
    obtain ⟨fin, hf⟩ := hf
    rw [tiempoEfectivoAPagar_metodo1 j inicio fin hi hf,
      if_neg (not_lt.mpr (hmetodo1 inicio fin hi hf)), if_pos (Or.inl (by simp [hi, hf]))]
    rfl

/-- C4 amended at the shift from 08:00 to 09:00 with one unpaid permit of 90
minutes and the cached total `{2, 15}`: the effective payable time is
`{0, 0}`. -/
theorem C4_cached_fallback_amended_witness :
    tiempoEfectivoAPagar jornadaPermisoLargo = { horas := 0, minutos := 0 } :=
  (C4_cached_fallback_amended jornadaPermisoLargo
    (fun inicio fin hi hf => by
      have h1 : inicio = MS_MINUTO * 480 := (Option.some.inj hi).symm
      have h2 : fin = MS_MINUTO * 540 := (Option.some.inj hf).symm
      subst h1 h2
      decide)
    (fun _ => by decide)).trans (by decide)

/-- C5: for a shift with no boundary times and an empty activity list, the
effective payable time is the cached `totalTiempoActividades` unchanged when
it is present, and `{0, 0}` when it is absent. -/
theorem C5_cached_fallback_base (j : Jornada)
    (hi : j.horaInicio = none) (_hf : j.horaFin = none) (hvacio : j.registros = []) :
    (∀ total, j.totalTiempoActividades = some total →
        tiempoEfectivoAPagar j = { horas := (total.horas : Int), minutos := (total.minutos : Int) })
      ∧ (j.totalTiempoActividades = none → tiempoEfectivoAPagar j = { horas := 0, minutos := 0 }) := by
  have hlen : ¬ (j.registros.length > 0) := by simp [hvacio]
  have hmain := tiempoEfectivoAPagar_sin_horas j (Or.inl hi)
  rw [if_neg hlen] at hmain
  constructor
  · intro total htotal
    rw [hmain, htotal]
    by_cases hpos : total.horas > 0 ∨ total.minutos > 0
    · simp only [hpos, if_true]
    · simp only [hpos, if_false]
      have h0 : total.horas = 0 ∧ total.minutos = 0 := by omega
      simp [tiempoCero, h0.1, h0.2]
  · intro hnone
    rw [hmain, hnone]
    rfl

/-- C5 at the shift with the cached total `{2, 15}`, no boundary times and no
activities: the effective payable time is `{2, 15}`. -/
theorem C5_cached_fallback_base_witness :
    tiempoEfectivoAPagar
        { horaInicio := none, horaFin := none, registros := [],
          totalTiempoActividades := some { horas := 2, minutos := 15 } }
      = { horas := 2, minutos := 15 } :=
  (C5_cached_fallback_base
    { horaInicio := none, horaFin := none, registros := [],
      totalTiempoActividades := some { horas := 2, minutos := 15 } } rfl rfl rfl).1
    { horas := 2, minutos := 15 } rfl

/-- C6: with both boundary times present the effective payable time depends
neither on the cached total nor on the activities that are not unpaid
permits: two shifts with the same boundary times and the same multiset of
unpaid-permit durations get the same result. -/
theorem C6_strict_priority (j1 j2 : Jornada) (inicio fin : Int)
    (h1i : j1.horaInicio = some inicio) (h1f : j1.horaFin = some fin)
    (h2i : j2.horaInicio = some inicio) (h2f : j2.horaFin = some fin)
    (hperm : List.Perm ((j1.registros.filter esPermisoNoRemunerado).map fun r => r.tiempo)
      ((j2.registros.filter esPermisoNoRemunerado).map fun r => r.tiempo)) :
    tiempoEfectivoAPagar j1 = tiempoEfectivoAPagar j2 := by
  have hsum : minutosPermisosNoRemunerados j1.registros
      = minutosPermisosNoRemunerados j2.registros := by
    unfold minutosPermisosNoRemunerados
    rw [sumarTiempos_eq_sum, sumarTiempos_eq_sum]
    have h := (hperm.map oCero).sum_eq
    simpa [List.map_map, Function.comp_def] using h
  rw [tiempoEfectivoAPagar_metodo1 j1 inicio fin h1i h1f,
    tiempoEfectivoAPagar_metodo1 j2 inicio fin h2i h2f, hsum]

/-- C6 at two shifts from 08:00 to 17:00 whose unpaid permits of 30 and 15
minutes come in different orders, with different other activities and
different cached totals. -/
theorem C6_strict_priority_witness :
    tiempoEfectivoAPagar
        { horaInicio := some (MS_MINUTO * 480), horaFin := some (MS_MINUTO * 1020),
          registros := [permisoNoRemunerado 30, permisoNoRemunerado 15],
          totalTiempoActividades := none }
      = tiempoEfectivoAPagar
        { horaInicio := some (MS_MINUTO * 480), horaFin := some (MS_MINUTO * 1020),
          registros :=
            [ permisoNoRemunerado 15,
              { tipoTiempo := "Operación", tipoPermiso := none,
                horaInicio := none, horaFin := none, tiempo := some 500 },
              permisoNoRemunerado 30 ],
          totalTiempoActividades := some { horas := 7, minutos := 1 } } :=
  C6_strict_priority _ _ (MS_MINUTO * 480) (MS_MINUTO * 1020) rfl rfl rfl rfl
    (List.Perm.swap (some 15) (some 30) [])

/-! ## Lemmas about `obtenerJornadasPaginadas` -/

theorem mathMinLista_spec (x : Int) (xs : List Int) :
    mathMinLista x xs ∈ x :: xs ∧ ∀ y ∈ x :: xs, mathMinLista x xs ≤ y := by
  unfold mathMinLista
  induction xs generalizing x with
  | nil => simp
  | cons z zs ih =>
    rw [List.foldl_cons]
    obtain ⟨hmem, hle⟩ := ih (if z < x then z else x)
    constructor
    · rcases List.mem_cons.mp hmem with h | h
      · rw [h]
        by_cases hz : z < x
        · simp [hz]
        · simp [hz]
      · exact List.mem_cons_of_mem _ (List.mem_cons_of_mem _ h)
    · intro y hy
      have hhead := hle (if z < x then z else x) (List.mem_cons_self _ _)
      rcases List.mem_cons.mp hy with h | h
      · have hx : (if z < x then z else x) ≤ x := by
          by_cases hz : z < x
          · simp only [hz, if_true]
            omega
          · simp only [hz, if_false]
            omega
        rw [h]
        omega
      · rcases List.mem_cons.mp h with h | h
        · have hx : (if z < x then z else x) ≤ z := by
            by_cases hz : z < x
            · simp only [hz, if_true]
              omega
            · simp only [hz, if_false]
              omega
          rw [h]
          omega
        · exact hle y (List.mem_cons_of_mem _ h)

theorem mathMaxLista_spec (x : Int) (xs : List Int) :
    mathMaxLista x xs ∈ x :: xs ∧ ∀ y ∈ x :: xs, y ≤ mathMaxLista x xs := by
  unfold mathMaxLista
  induction xs generalizing x with
  | nil => simp
  | cons z zs ih =>
    rw [List.foldl_cons]
    obtain ⟨hmem, hle⟩ := ih (if x < z then z else x)
    constructor
    · rcases List.mem_cons.mp hmem with h | h
      · rw [h]
        by_cases hz : x < z
        · simp [hz]
        · simp [hz]
      · exact List.mem_cons_of_mem _ (List.mem_cons_of_mem _ h)
    · intro y hy
      have hhead := hle (if x < z then z else x) (List.mem_cons_self _ _)
      rcases List.mem_cons.mp hy with h | h
      · have hx : x ≤ (if x < z then z else x) := by
          by_cases hz : x < z
          · simp only [hz, if_true]
            omega
          · simp only [hz, if_false]
            omega
        rw [h]
        omega
      · rcases List.mem_cons.mp h with h | h
        · have hx : z ≤ (if x < z then z else x) := by
            by_cases hz : x < z
            · simp only [hz, if_true]
              omega
            · simp only [hz, if_false]
              omega
          rw [h]
          omega
        · exact hle y (List.mem_cons_of_mem _ h)

theorem mathMax_cero_eq (m : Int) : mathMax 0 m = max 0 m := by
  unfold mathMax
  by_cases h : 0 < m
  · rw [if_pos h, max_eq_right (le_of_lt h)]
  · rw [if_neg h, max_eq_left (not_lt.mp h)]

theorem tiempoPermisosNoRemunerados_eq_sum (registros : List Registro) :
    tiempoPermisosNoRemunerados (registros.filter esPermisoLaboral)
      = ((registros.filter fun r =>
          esPermisoLaboral r && tipoPermisoEs "permiso no remunerado" r).map
            fun r => oCero r.tiempo).sum := by
  unfold tiempoPermisosNoRemunerados
  rw [sumarTiempos_eq_sum, List.filter_filter]
  congr 2
  apply List.filter_congr
  intro r _
  exact Bool.and_comm _ _

theorem tiempoPermisosRemunerados_eq_sum (registros : List Registro) :
    tiempoPermisosRemunerados (registros.filter esPermisoLaboral)
      = ((registros.filter fun r =>
          esPermisoLaboral r && tipoPermisoEs "permiso remunerado" r).map minutosPermiso).sum := by
  unfold tiempoPermisosRemunerados
  rw [foldl_suma_eq minutosPermiso _ 0, List.filter_filter, zero_add]
  congr 2
  apply List.filter_congr
  intro r _
  exact Bool.and_comm _ _

theorem calcular_sin_horas (registros : List Registro)
    (hHL : (registros.filter esHorarioLaboral).length > 0)
    (hhoras : horasDe (registros.filter esHorarioLaboral) = []) :
    calcularJornadaOptimizada registros
      = { horaInicio := none, horaFin := none, tiempoEfectivoAPagar := tiempoCero } := by
  unfold calcularJornadaOptimizada
  simp only [hHL, if_true, hhoras]

theorem calcular_con_horas (registros : List Registro) (h : Int × Int) (hs : List (Int × Int))
    (hHL : (registros.filter esHorarioLaboral).length > 0)
    (hhoras : horasDe (registros.filter esHorarioLaboral) = h :: hs) :
    calcularJornadaOptimizada registros
      = { horaInicio := some (mathMinLista h.1 (hs.map Prod.fst)),
          horaFin := some
            (if mathMaxLista h.2 (hs.map Prod.snd) ≤ mathMinLista h.1 (hs.map Prod.fst) then
              mathMaxLista h.2 (hs.map Prod.snd) + MS_DIA
            else mathMaxLista h.2 (hs.map Prod.snd)),
          tiempoEfectivoAPagar := aHorasMinutos (mathMax 0
            (mathRound
              ((if mathMaxLista h.2 (hs.map Prod.snd) ≤ mathMinLista h.1 (hs.map Prod.fst) then
                  mathMaxLista h.2 (hs.map Prod.snd) + MS_DIA
                else mathMaxLista h.2 (hs.map Prod.snd)) - mathMinLista h.1 (hs.map Prod.fst))
              MS_MINUTO
            - tiempoPermisosNoRemunerados (registros.filter esPermisoLaboral))) } := by
  unfold calcularJornadaOptimizada
  simp only [hHL, if_true, hhoras]

theorem calcular_solo_permisos (registros : List Registro)
    (hHL : ¬ (registros.filter esHorarioLaboral).length > 0)
    (hPL : (registros.filter esPermisoLaboral).length > 0) :
    calcularJornadaOptimizada registros
      = { horaInicio := none, horaFin := none,
          tiempoEfectivoAPagar :=
            aHorasMinutos (tiempoPermisosRemunerados (registros.filter esPermisoLaboral)) } := by
  unfold calcularJornadaOptimizada
  simp only [hHL, if_false, hPL, if_true]

theorem calcular_sin_laborales (registros : List Registro)
    (hHL : ¬ (registros.filter esHorarioLaboral).length > 0)
    (hPL : ¬ (registros.filter esPermisoLaboral).length > 0) :
    calcularJornadaOptimizada registros
      = { horaInicio := none, horaFin := none, tiempoEfectivoAPagar := tiempoCero } := by
  unfold calcularJornadaOptimizada
  simp only [hHL, if_false, hPL]

theorem filter_horario_registrosLaborales (registros : List Registro) :
    (registrosLaborales registros).filter esHorarioLaboral = registros.filter esHorarioLaboral := by
  unfold registrosLaborales
  rw [List.filter_filter]
  apply List.filter_congr
  intro r _
  cases esHorarioLaboral r <;> simp

theorem filter_permiso_registrosLaborales (registros : List Registro) :
    (registrosLaborales registros).filter esPermisoLaboral = registros.filter esPermisoLaboral := by
  unfold registrosLaborales
  rw [List.filter_filter]
  apply List.filter_congr
  intro r _
  cases esPermisoLaboral r <;> simp

theorem calcular_registrosLaborales (registros : List Registro) :
    calcularJornadaOptimizada (registrosLaborales registros)
      = calcularJornadaOptimizada registros := by
  unfold calcularJornadaOptimizada
  rw [filter_horario_registrosLaborales, filter_permiso_registrosLaborales]

/-! ## Claims about `obtenerJornadasPaginadas` -/

/-- C7 as stated fails: for the two `Horario Laboral` records 08:00-12:00 and
06:00 without `horaFin`, the minimum start time over the WorkSchedule
activities is 06:00 and the maximum end time 12:00, which is 360 minutes and
`{6, 0}`; the code leaves the record without `horaFin` out, derives 08:00 as
`horaInicio` and returns `{4, 0}`. -/
theorem C7_work_schedule_counterexample :
    (∀ r ∈ registrosSinHoraFin, esHorarioLaboral r = true)
      ∧ tiempoHorarioLaboralSpec registrosSinHoraFin = some { horas := 6, minutos := 0 }
      ∧ (calcularJornadaOptimizada registrosSinHoraFin).tiempoEfectivoAPagar
          = { horas := 4, minutos := 0 }
      ∧ (calcularJornadaOptimizada registrosSinHoraFin).horaInicio = some (MS_MINUTO * 480) := by
  decide

/-- C7 amended: for a virtual shift with at least one `Horario Laboral`
activity, the times are taken over the `Horario Laboral` activities that have
both `horaInicio` and `horaFin`. If there is none the result is `{0, 0}` with
no derived times. Otherwise the derived start is the minimum of their starts,
the derived end the maximum of their ends plus 24h when it is not after the
derived start, and the effective time is `x = max(0, elapsed - unpaid)` as
`{floor(x/60), x mod 60}`, where `elapsed` is the rounded number of minutes
from the derived start to the derived end and `unpaid` sums the durations of
the `Permiso Laboral` activities whose `tipoPermiso` is
`'permiso no remunerado'` up to letter case. -/
theorem C7_work_schedule_amended (registros : List Registro)
    (hHL : ∃ r ∈ registros, r.tipoTiempo = "Horario Laboral") :
    (horasDe (registros.filter esHorarioLaboral) = [] →
        calcularJornadaOptimizada registros
          = { horaInicio := none, horaFin := none,
              tiempoEfectivoAPagar := { horas := 0, minutos := 0 } })
      ∧ (horasDe (registros.filter esHorarioLaboral) ≠ [] →
        ∃ inicio fin : Int,
          (inicio ∈ (horasDe (registros.filter esHorarioLaboral)).map Prod.fst
            ∧ ∀ s ∈ (horasDe (registros.filter esHorarioLaboral)).map Prod.fst, inicio ≤ s)
          ∧ (fin ∈ (horasDe (registros.filter esHorarioLaboral)).map Prod.snd
            ∧ ∀ e ∈ (horasDe (registros.filter esHorarioLaboral)).map Prod.snd, e ≤ fin)
          ∧ calcularJornadaOptimizada registros
            = { horaInicio := some inicio,
                horaFin := some (if fin ≤ inicio then fin + MS_DIA else fin),
                tiempoEfectivoAPagar :=
                  { horas := max 0
                      (mathRound ((if fin ≤ inicio then fin + MS_DIA else fin) - inicio) MS_MINUTO
                        - ((registros.filter fun r => esPermisoLaboral r
                            && tipoPermisoEs "permiso no remunerado" r).map
                              fun r => oCero r.tiempo).sum) / 60,
                    minutos := max 0
                      (mathRound ((if fin ≤ inicio then fin + MS_DIA else fin) - inicio) MS_MINUTO
                        - ((registros.filter fun r => esPermisoLaboral r
                            && tipoPermisoEs "permiso no remunerado" r).map
                              fun r => oCero r.tiempo).sum) % 60 } }) := by
  have hlen : (registros.filter esHorarioLaboral).length > 0 := by
    obtain ⟨r, hr, ht⟩ := hHL
    apply List.length_pos.mpr
    intro hnil
    have hmem : r ∈ registros.filter esHorarioLaboral :=
      List.mem_filter.mpr ⟨hr, by simp [esHorarioLaboral, ht]⟩
    rw [hnil] at hmem
    exact List.not_mem_nil _ hmem
  constructor
  · intro hvacio
    exact calcular_sin_horas registros hlen hvacio
  · intro hne
    cases hhoras : horasDe (registros.filter esHorarioLaboral) with
    | nil => exact absurd hhoras hne
    | cons h hs =>
      refine ⟨mathMinLista h.1 (hs.map Prod.fst), mathMaxLista h.2 (hs.map Prod.snd), ?_, ?_, ?_⟩
      · simpa using mathMinLista_spec h.1 (hs.map Prod.fst)
      · simpa using mathMaxLista_spec h.2 (hs.map Prod.snd)
      · rw [calcular_con_horas registros h hs hlen hhoras, mathMax_cero_eq,
          aHorasMinutos_of_nonneg _ (le_max_left _ _), tiempoPermisosNoRemunerados_eq_sum]

/-- C7 amended at the records 08:00-12:00 and 06:00 without `horaFin`: the
derived start is 08:00 and the effective time `{4, 0}`. -/
theorem C7_work_schedule_amended_witness :
    ∃ inicio fin : Int,
      (inicio ∈ (horasDe (registrosSinHoraFin.filter esHorarioLaboral)).map Prod.fst
        ∧ ∀ s ∈ (horasDe (registrosSinHoraFin.filter esHorarioLaboral)).map Prod.fst, inicio ≤ s)
      ∧ (fin ∈ (horasDe (registrosSinHoraFin.filter esHorarioLaboral)).map Prod.snd
        ∧ ∀ e ∈ (horasDe (registrosSinHoraFin.filter esHorarioLaboral)).map Prod.snd, e ≤ fin)
      ∧ calcularJornadaOptimizada registrosSinHoraFin
        = { horaInicio := some inicio,
            horaFin := some (if fin ≤ inicio then fin + MS_DIA else fin),
            tiempoEfectivoAPagar :=
              { horas := max 0
                  (mathRound ((if fin ≤ inicio then fin + MS_DIA else fin) - inicio) MS_MINUTO
                    - ((registrosSinHoraFin.filter fun r => esPermisoLaboral r
                        && tipoPermisoEs "permiso no remunerado" r).map
                          fun r => oCero r.tiempo).sum) / 60,
                minutos := max 0
                  (mathRound ((if fin ≤ inicio then fin + MS_DIA else fin) - inicio) MS_MINUTO
                    - ((registrosSinHoraFin.filter fun r => esPermisoLaboral r
                        && tipoPermisoEs "permiso no remunerado" r).map
                          fun r => oCero r.tiempo).sum) % 60 } } :=
  (C7_work_schedule_amended registrosSinHoraFin
    ⟨_, List.mem_cons_self _ _, rfl⟩).2 (by decide)

/-- C8: for a virtual shift with at least one `Permiso Laboral` activity and
no `Horario Laboral` activity, the effective time is the sum `S`, over the
paid permits only, of each one's duration, converted to hours and minutes by
`floor(S/60)` and `S % 60`; a permit's duration is recomputed from its own
start and end, with the 24h rollover, when both are present, and is its
stored `tiempo` otherwise. Unpaid permits are not in the sum. -/
theorem C8_permit_only (registros : List Registro)
    (hPL : ∃ r ∈ registros, r.tipoTiempo = "Permiso Laboral")
    (hHL : ∀ r ∈ registros, r.tipoTiempo ≠ "Horario Laboral") :
    (calcularJornadaOptimizada registros).tiempoEfectivoAPagar
        = { horas := mathFloor ((registros.filter fun r => esPermisoLaboral r
                && tipoPermisoEs "permiso remunerado" r).map minutosPermiso).sum 60,
            minutos := jsMod ((registros.filter fun r => esPermisoLaboral r
                && tipoPermisoEs "permiso remunerado" r).map minutosPermiso).sum 60 }
      ∧ (0 ≤ ((registros.filter fun r => esPermisoLaboral r
                && tipoPermisoEs "permiso remunerado" r).map minutosPermiso).sum →
          (calcularJornadaOptimizada registros).tiempoEfectivoAPagar
            = { horas := ((registros.filter fun r => esPermisoLaboral r
                    && tipoPermisoEs "permiso remunerado" r).map minutosPermiso).sum / 60,
                minutos := ((registros.filter fun r => esPermisoLaboral r
                    && tipoPermisoEs "permiso remunerado" r).map minutosPermiso).sum % 60 })
      ∧ (∀ (r : Registro) (inicio fin : Int), r.horaInicio = some inicio → r.horaFin = some fin →
          minutosPermiso r
            = mathRound ((if fin ≤ inicio then fin + MS_DIA else fin) - inicio) MS_MINUTO)
      ∧ (∀ r : Registro, r.horaInicio = none ∨ r.horaFin = none →
          minutosPermiso r = oCero r.tiempo) := by
  have hnoHL : ¬ (registros.filter esHorarioLaboral).length > 0 := by
    have hnil : registros.filter esHorarioLaboral = [] := by
      apply List.filter_eq_nil_iff.mpr
      intro r hr
      simp [esHorarioLaboral, hHL r hr]
    simp [hnil]
  have hlen : (registros.filter esPermisoLaboral).length > 0 := by
    obtain ⟨r, hr, ht⟩ := hPL
    apply List.length_pos.mpr
    intro hnil
    have hmem : r ∈ registros.filter esPermisoLaboral :=
      List.mem_filter.mpr ⟨hr, by simp [esPermisoLaboral, ht]⟩
    rw [hnil] at hmem
    exact List.not_mem_nil _ hmem
  have hmain : (calcularJornadaOptimizada registros).tiempoEfectivoAPagar
      = aHorasMinutos ((registros.filter fun r => esPermisoLaboral r
          && tipoPermisoEs "permiso remunerado" r).map minutosPermiso).sum := by
    rw [calcular_solo_permisos registros hnoHL hlen, tiempoPermisosRemunerados_eq_sum]
  refine ⟨hmain, ?_, ?_, ?_⟩
  · intro hpos
    rw [hmain, aHorasMinutos_of_nonneg _ hpos]
  · intro r inicio fin hi hf
    unfold minutosPermiso
    rw [hi, hf]
  · intro r hfalta
    unfold minutosPermiso
    rcases hfalta with h | h
    · rw [h]
    · rw [h]
      cases r.horaInicio <;> rfl

/-- C8 at one paid permit of 30 minutes and one unpaid permit of 45 minutes:
the effective time is `{0, 30}`. -/
theorem C8_permit_only_witness :
    (calcularJornadaOptimizada registrosSoloPermisos).tiempoEfectivoAPagar
      = { horas := 0, minutos := 30 } :=
  (C8_permit_only registrosSoloPermisos ⟨_, List.mem_cons_self _ _, rfl⟩
    (by decide)).1.trans (by decide)

/-- C9: two activity lists that have the same `Horario Laboral` and
`Permiso Laboral` activities, so that one is obtained from the other by
adding or removing activities of other kinds, get the same effective time
and the same derived `horaInicio` and `horaFin`; a list with no activity of
these two kinds yields `{0, 0}`. -/
theorem C9_other_kinds_ignored (antes despues : List Registro)
    (hmismos : registrosLaborales antes = registrosLaborales despues) :
    calcularJornadaOptimizada antes = calcularJornadaOptimizada despues
      ∧ ((∀ r ∈ antes, r.tipoTiempo ≠ "Horario Laboral" ∧ r.tipoTiempo ≠ "Permiso Laboral") →
          calcularJornadaOptimizada antes
            = { horaInicio := none, horaFin := none,
                tiempoEfectivoAPagar := { horas := 0, minutos := 0 } }) := by
  constructor
  · rw [← calcular_registrosLaborales antes, ← calcular_registrosLaborales despues, hmismos]
  · intro hotros
    have hnoHL : ¬ (antes.filter esHorarioLaboral).length > 0 := by
      have hnil : antes.filter esHorarioLaboral = [] := by
        apply List.filter_eq_nil_iff.mpr
        intro r hr
        simp [esHorarioLaboral, (hotros r hr).1]
      simp [hnil]
    have hnoPL : ¬ (antes.filter esPermisoLaboral).length > 0 := by
      have hnil : antes.filter esPermisoLaboral = [] := by
        apply List.filter_eq_nil_iff.mpr
        intro r hr
        simp [esPermisoLaboral, (hotros r hr).2]
      simp [hnil]
    exact calcular_sin_laborales antes hnoHL hnoPL

/-- C9 at the two `Horario Laboral` records alone and with activities of
other kinds, one of them with times, put before and after them. -/
theorem C9_other_kinds_ignored_witness :
    calcularJornadaOptimizada registrosSinHoraFin
      = calcularJornadaOptimizada
          ({ tipoTiempo := "Operación", tipoPermiso := none,
             horaInicio := some (MS_MINUTO * 60), horaFin := some (MS_MINUTO * 1380),
             tiempo := some 1320 } :: registrosSinHoraFin ++ registrosOtraCategoria) :=
  (C9_other_kinds_ignored registrosSinHoraFin
    ({ tipoTiempo := "Operación", tipoPermiso := none,
       horaInicio := some (MS_MINUTO * 60), horaFin := some (MS_MINUTO * 1380),
       tiempo := some 1320 } :: registrosSinHoraFin ++ registrosOtraCategoria)
    (by decide)).1

/-- C10 as stated fails. A `Permiso Laboral` record of 45 minutes spelled
`'permiso no remunerado'` is deducted by the category-restricted mode and
not by strategy 1; a record of 45 minutes spelled `'permiso NO remunerado'`
whose `tipoTiempo` is not `'Permiso Laboral'` is deducted by strategy 1 and
not by the category-restricted mode. -/
theorem C10_same_unpaid_deduction_counterexample :
    tiempoPermisosNoRemunerados (registrosMinuscula.filter esPermisoLaboral) = 45
      ∧ minutosPermisosNoRemunerados registrosMinuscula = 0
      ∧ tiempoPermisosNoRemunerados (registrosOtraCategoria.filter esPermisoLaboral) = 0
      ∧ minutosPermisosNoRemunerados registrosOtraCategoria = 45 := by
  decide

/-- C10 amended: the category-restricted mode deducts the `Permiso Laboral`
activities whose `tipoPermiso` is `'permiso no remunerado'` up to letter
case, strategy 1 the activities of any kind whose `tipoPermiso` is exactly
`'permiso NO remunerado'`. The two deductions are equal on every list in
which each activity spelled exactly `'permiso NO remunerado'` is a
`Permiso Laboral` one and each `Permiso Laboral` activity that matches up to
letter case is spelled exactly `'permiso NO remunerado'`. -/
theorem C10_same_unpaid_deduction_amended (registros : List Registro)
    (hcategoria : ∀ r ∈ registros, r.tipoPermiso = some "permiso NO remunerado" →
      r.tipoTiempo = "Permiso Laboral")
    (hletras : ∀ r ∈ registros, r.tipoTiempo = "Permiso Laboral" →
      tipoPermisoEs "permiso no remunerado" r = true →
      r.tipoPermiso = some "permiso NO remunerado") :
    tiempoPermisosNoRemunerados (registros.filter esPermisoLaboral)
      = minutosPermisosNoRemunerados registros := by
  rw [tiempoPermisosNoRemunerados_eq_sum]
  unfold minutosPermisosNoRemunerados
  rw [sumarTiempos_eq_sum]
  congr 2
  apply List.filter_congr
  intro r hr
  by_cases hexacto : r.tipoPermiso = some "permiso NO remunerado"
  · have hPL : esPermisoLaboral r = true := by
      simp [esPermisoLaboral, hcategoria r hr hexacto]
    have hlower : tipoPermisoEs "permiso no remunerado" r = true := by
      unfold tipoPermisoEs
      rw [hexacto]
      decide
    have hcodigo : esPermisoNoRemunerado r = true := by
      simp [esPermisoNoRemunerado, hexacto]
    rw [hPL, hlower, hcodigo]
    rfl
  · have hcodigo : esPermisoNoRemunerado r = false := by
      simp [esPermisoNoRemunerado, hexacto]
    rw [hcodigo]
    by_cases hPL : r.tipoTiempo = "Permiso Laboral"
    · have hno : tipoPermisoEs "permiso no remunerado" r = false := by
        cases hl : tipoPermisoEs "permiso no remunerado" r with
        | false => rfl
        | true => exact absurd (hletras r hr hPL hl) hexacto
      rw [hno, Bool.and_false]
    · have hno : esPermisoLaboral r = false := by
        simp [esPermisoLaboral, hPL]
      rw [hno, Bool.false_and]

/-- C10 amended at one unpaid permit of 45 minutes spelled
`'permiso NO remunerado'`, one paid permit and one work-schedule record:
both modes deduct 45 minutes. -/
theorem C10_same_unpaid_deduction_amended_witness :
    tiempoPermisosNoRemunerados ((registrosSoloPermisos ++ registrosSinHoraFin).filter
        esPermisoLaboral) = 45
      ∧ minutosPermisosNoRemunerados (registrosSoloPermisos ++ registrosSinHoraFin) = 45 :=
  have h := C10_same_unpaid_deduction_amended (registrosSoloPermisos ++ registrosSinHoraFin)
    (by decide) (by decide)
  ⟨h.trans (by decide), by decide⟩

/-! ## Lemmas about `consolidarJornadasDuplicadas` -/

theorem foldl_set_spec (xs acc : List String) (hacc : acc.Nodup) :
    (xs.foldl (fun set x => if x ∈ set then set else set ++ [x]) acc).Nodup
      ∧ ∀ y, y ∈ xs.foldl (fun set x => if x ∈ set then set else set ++ [x]) acc
          ↔ y ∈ acc ∨ y ∈ xs := by
  induction xs generalizing acc with
  | nil => simp [hacc]
  | cons x xs ih =>
    rw [List.foldl_cons]
    by_cases hx : x ∈ acc
    · rw [if_pos hx]
      obtain ⟨hnodup, hmem⟩ := ih acc hacc
      refine ⟨hnodup, fun y => ?_⟩
      rw [hmem y, List.mem_cons]
      constructor
      · rintro (h | h)
        · exact Or.inl h
        · exact Or.inr (Or.inr h)
      · rintro (h | h | h)
        · exact Or.inl h
        · exact Or.inl (h ▸ hx)
        · exact Or.inr h
    · rw [if_neg hx]
      have hacc2 : (acc ++ [x]).Nodup := by
        rw [List.nodup_append]
        refine ⟨hacc, List.nodup_singleton x, ?_⟩
        intro a ha hb
        rw [List.mem_singleton] at hb
        exact hx (hb ▸ ha)
      obtain ⟨hnodup, hmem⟩ := ih (acc ++ [x]) hacc2
      refine ⟨hnodup, fun y => ?_⟩
      rw [hmem y, List.mem_append, List.mem_singleton, List.mem_cons]
      constructor
      · rintro ((h | h) | h)
        · exact Or.inl h
        · exact Or.inr (Or.inl h)
        · exact Or.inr (Or.inr h)
      · rintro (h | h | h)
        · exact Or.inl (Or.inl h)
        · exact Or.inl (Or.inr h)
        · exact Or.inr h

theorem arrayFromSet_nodup (xs : List String) : (arrayFromSet xs).Nodup :=
  (foldl_set_spec xs [] List.nodup_nil).1

theorem mem_arrayFromSet (xs : List String) (y : String) : y ∈ arrayFromSet xs ↔ y ∈ xs := by
  unfold arrayFromSet
  rw [(foldl_set_spec xs [] List.nodup_nil).2 y]
  simp

theorem mem_registrosCombinados (jornadasDelDia : List JornadaDoc) (id : String) :
    id ∈ registrosCombinados jornadasDelDia
      ↔ ∃ jornada ∈ jornadasDelDia, ∃ registro ∈ jornada.registros,
          registro.comoString = id := by
  unfold registrosCombinados
  rw [mem_arrayFromSet]
  simp only [List.mem_flatMap, List.mem_map]

theorem claves_agregarAGrupo (grupos : List (Int × List JornadaDoc)) (clave : Int)
    (jornada : JornadaDoc) :
    (agregarAGrupo grupos clave jornada).map Prod.fst
      = if clave ∈ grupos.map Prod.fst then grupos.map Prod.fst
        else grupos.map Prod.fst ++ [clave] := by
  induction grupos with
  | nil => simp [agregarAGrupo]
  | cons g resto ih =>
    obtain ⟨c, js⟩ := g
    unfold agregarAGrupo
    by_cases hc : c = clave
    · simp [hc]
    · have hne : ¬ clave = c := fun h => hc h.symm
      simp only [hc, if_false, List.map_cons, ih, List.mem_cons, hne, false_or]
      by_cases hmem : clave ∈ resto.map Prod.fst
      · simp [hmem]
      · simp [hmem]

theorem grupoDe_agregarAGrupo (grupos : List (Int × List JornadaDoc)) (clave : Int)
    (jornada : JornadaDoc) (c : Int) :
    grupoDe (agregarAGrupo grupos clave jornada) c
      = if c = clave then grupoDe grupos clave ++ [jornada] else grupoDe grupos c := by
  induction grupos with
  | nil =>
    unfold agregarAGrupo
    by_cases hc : c = clave
    · simp [grupoDe, hc]
    · have hne : ¬ clave = c := fun h => hc h.symm
      simp [grupoDe, hc, hne]
  | cons g resto ih =>
    obtain ⟨c0, js⟩ := g
    unfold agregarAGrupo
    by_cases h0 : c0 = clave
    · by_cases hc : c = clave
      · simp [grupoDe, h0, hc]
      · have hne : ¬ clave = c := fun h => hc h.symm
        simp [grupoDe, h0, hc, hne]
    · by_cases hc : c = clave
      · subst hc
        simp [grupoDe, h0, ih]
      · simp only [h0, if_false, grupoDe, ih, hc]

theorem grupoDe_of_mem (grupos : List (Int × List JornadaDoc))
    (hnodup : (grupos.map Prod.fst).Nodup) (g : Int × List JornadaDoc) (hg : g ∈ grupos) :
    grupoDe grupos g.1 = g.2 := by
  induction grupos with
  | nil => exact absurd hg (List.not_mem_nil _)
  | cons g0 resto ih =>
    obtain ⟨c0, js⟩ := g0
    rw [List.map_cons, List.nodup_cons] at hnodup
    rcases List.mem_cons.mp hg with h | h
    · subst h
      simp [grupoDe]
    · have hne : c0 ≠ g.1 := by
        intro heq
        apply hnodup.1
        rw [heq]
        exact List.mem_map.mpr ⟨g, h, rfl⟩
      simp only [grupoDe, hne, if_false]
      exact ih hnodup.2 h

theorem foldl_agregarAGrupo_spec (jornadas previas : List JornadaDoc)
    (grupos : List (Int × List JornadaDoc))
    (hnodup : (grupos.map Prod.fst).Nodup)
    (hgrupo : ∀ c, grupoDe grupos c = previas.filter fun j => decide (claveDate j = c))
    (hclaves : ∀ c, c ∈ grupos.map Prod.fst ↔ c ∈ previas.map claveDate) :
    ((jornadas.foldl (fun gs j => agregarAGrupo gs (claveDate j) j) grupos).map Prod.fst).Nodup
      ∧ (∀ c, grupoDe (jornadas.foldl (fun gs j => agregarAGrupo gs (claveDate j) j) grupos) c
          = (previas ++ jornadas).filter fun j => decide (claveDate j = c))
      ∧ (∀ c, c ∈ (jornadas.foldl (fun gs j => agregarAGrupo gs (claveDate j) j) grupos).map
            Prod.fst ↔ c ∈ (previas ++ jornadas).map claveDate) := by
  induction jornadas generalizing previas grupos with
  | nil =>
    simp only [List.foldl_nil, List.append_nil]
    exact ⟨hnodup, hgrupo, hclaves⟩
  | cons j resto ih =>
    rw [List.foldl_cons]
    have h := ih (previas ++ [j]) (agregarAGrupo grupos (claveDate j) j) ?_ ?_ ?_
    · simpa [List.append_assoc] using h
    · rw [claves_agregarAGrupo]
      by_cases hmem : claveDate j ∈ grupos.map Prod.fst
      · rw [if_pos hmem]
        exact hnodup
      · rw [if_neg hmem, List.nodup_append]
        refine ⟨hnodup, List.nodup_singleton _, ?_⟩
        intro a ha hb
        rw [List.mem_singleton] at hb
        exact hmem (hb ▸ ha)
    · intro c
      rw [grupoDe_agregarAGrupo, List.filter_append]
      by_cases hc : c = claveDate j
      · have hc2 : claveDate j = c := hc.symm
        simp [hc, hgrupo]
      · have hc2 : ¬ claveDate j = c := fun h => hc h.symm
        simp [hc, hc2, hgrupo]
    · intro c
      rw [claves_agregarAGrupo]
      by_cases hmem : claveDate j ∈ grupos.map Prod.fst
      · rw [if_pos hmem, hclaves c]
        simp only [List.map_append, List.mem_append, List.map_cons, List.map_nil,
          List.mem_singleton]
        constructor
        · exact fun h => Or.inl h
        · rintro (h | h)
          · exact h
          · rw [h]
            exact (hclaves _).mp hmem
      · rw [if_neg hmem]
        simp only [List.map_append, List.mem_append, List.map_cons, List.map_nil,
          List.mem_singleton, hclaves c]

theorem jornadasPorFecha_spec (jornadas : List JornadaDoc) :
    ((jornadasPorFecha jornadas).map Prod.fst).Nodup
      ∧ (∀ g ∈ jornadasPorFecha jornadas,
          g.2 = (jornadas.filter fun j => decide (claveDate j = g.1)) ∧ g.2 ≠ []
            ∧ g.1 ∈ jornadas.map claveDate)
      ∧ (∀ c, c ∈ (jornadasPorFecha jornadas).map Prod.fst ↔ c ∈ jornadas.map claveDate) := by
  have h := foldl_agregarAGrupo_spec jornadas [] [] List.nodup_nil
    (fun c => by simp [grupoDe]) (fun c => by simp)
  simp only [List.nil_append] at h
  obtain ⟨hnodup, hgrupo, hclaves⟩ := h
  refine ⟨hnodup, ?_, hclaves⟩
  intro g hg
  have hg2 : g.2 = jornadas.filter fun j => decide (claveDate j = g.1) := by
    rw [← hgrupo g.1]
    exact (grupoDe_of_mem _ hnodup g hg).symm
  have hclave : g.1 ∈ jornadas.map claveDate :=
    (hclaves g.1).mp (List.mem_map_of_mem Prod.fst hg)
  refine ⟨hg2, ?_, hclave⟩
  obtain ⟨j, hj, hjc⟩ := List.mem_map.mp hclave
  intro hnil
  have hmem : j ∈ jornadas.filter fun j => decide (claveDate j = g.1) :=
    List.mem_filter.mpr ⟨hj, by simp [hjc]⟩
  rw [← hg2, hnil] at hmem
  exact List.not_mem_nil _ hmem

theorem normalizarFecha_idem (fecha : Int) :
    normalizarFecha (normalizarFecha fecha) = normalizarFecha fecha := by
  unfold normalizarFecha MS_DIA
  omega

theorem procesarGrupo_uno (operarioId : String) (idNuevo : Nat) (jornada : JornadaDoc) :
    procesarGrupo operarioId idNuevo [jornada]
      = { operaciones :=
            if jornada.fecha ≠ normalizarFecha jornada.fecha then
              [Operacion.guardar { jornada with fecha := normalizarFecha jornada.fecha }]
            else [],
          jornadas := [{ jornada with fecha := normalizarFecha jornada.fecha }] } := by
  have hlen : ¬ ([jornada].length > 1) := by simp
  simp only [procesarGrupo, hlen, if_false, List.head?_cons]
  by_cases h : jornada.fecha ≠ normalizarFecha jornada.fecha
  · rw [if_pos h, if_pos h]
  · rw [if_neg h, if_neg h]
    have hj : { jornada with fecha := normalizarFecha jornada.fecha } = jornada := by
      cases jornada
      simp only [JornadaDoc.mk.injEq, and_true, true_and]
      exact (not_not.mp h).symm
    rw [hj]

theorem procesarGrupo_varios (operarioId : String) (idNuevo : Nat) (primera segunda : JornadaDoc)
    (resto : List JornadaDoc) :
    procesarGrupo operarioId idNuevo (primera :: segunda :: resto)
      = { operaciones :=
            (primera :: segunda :: resto).map (fun jornada =>
                Operacion.findByIdAndDelete jornada._id)
              ++ [Operacion.crear (nuevaJornada operarioId idNuevo
                  (normalizarFecha primera.fecha)
                  (registrosCombinados (primera :: segunda :: resto)))],
          jornadas :=
            [{ nuevaJornada operarioId idNuevo (normalizarFecha primera.fecha)
                (registrosCombinados (primera :: segunda :: resto)) with
                registros := (registrosCombinados (primera :: segunda :: resto)).map
                  RegistroRef.documento }] } := by
  unfold procesarGrupo
  simp

theorem procesarGrupo_nil (operarioId : String) (idNuevo : Nat) :
    procesarGrupo operarioId idNuevo [] = { operaciones := [], jornadas := [] } := by
  simp [procesarGrupo]

theorem crear_mem_procesarGrupo (operarioId : String) (idNuevo : Nat)
    (jornadasDelDia : List JornadaDoc) (jornada : JornadaDoc)
    (h : Operacion.crear jornada ∈ (procesarGrupo operarioId idNuevo jornadasDelDia).operaciones) :
    jornada._id = idNuevo ∧ jornadasDelDia.length > 1 := by
  match jornadasDelDia, h with
  | [], h =>
    rw [procesarGrupo_nil] at h
    exact absurd h (List.not_mem_nil _)
  | [unica], h =>
    rw [procesarGrupo_uno] at h
    by_cases hf : unica.fecha ≠ normalizarFecha unica.fecha
    · simp [hf] at h
    · simp [hf] at h
  | primera :: segunda :: resto, h =>
    rw [procesarGrupo_varios] at h
    simp only [List.mem_append, List.mem_map, List.mem_singleton, Operacion.crear.injEq] at h
    rcases h with ⟨_, _, hx⟩ | h
    · exact absurd hx (by simp)
    · rw [h]
      exact ⟨rfl, by simp⟩

theorem delete_mem_procesarGrupo (operarioId : String) (idNuevo : Nat)
    (jornadasDelDia : List JornadaDoc) (x : Nat) :
    Operacion.findByIdAndDelete x ∈ (procesarGrupo operarioId idNuevo jornadasDelDia).operaciones
      ↔ jornadasDelDia.length > 1 ∧ ∃ j ∈ jornadasDelDia, j._id = x := by
  match jornadasDelDia with
  | [] =>
    rw [procesarGrupo_nil]
    simp
  | [unica] =>
    rw [procesarGrupo_uno]
    by_cases hf : unica.fecha ≠ normalizarFecha unica.fecha
    · simp [hf]
    · simp [hf]
  | primera :: segunda :: resto =>
    rw [procesarGrupo_varios]
    simp only [List.mem_append, List.mem_map, List.mem_singleton, Operacion.findByIdAndDelete.injEq]
    constructor
    · rintro (⟨j, hj, hx⟩ | h)
      · exact ⟨by simp, j, hj, hx⟩
      · exact absurd h (by simp)
    · rintro ⟨_, j, hj, hx⟩
      exact Or.inl ⟨j, hj, hx⟩

theorem claveDate_fecha_normalizada (jornada otra : JornadaDoc)
    (h : otra.fecha = normalizarFecha jornada.fecha) : claveDate otra = claveDate jornada := by
  unfold claveDate
  rw [h, normalizarFecha_idem]

theorem jornadas_procesarGrupo (operarioId : String) (idNuevo : Nat)
    (jornadasDelDia : List JornadaDoc) (clave : Int) (hne : jornadasDelDia ≠ [])
    (hclave : ∀ j ∈ jornadasDelDia, claveDate j = clave) :
    ∃ s, (procesarGrupo operarioId idNuevo jornadasDelDia).jornadas = [s]
      ∧ claveDate s = clave := by
  match jornadasDelDia, hne, hclave with
  | [], hne, _ => exact absurd rfl hne
  | [unica], _, hclave =>
    rw [procesarGrupo_uno]
    refine ⟨_, rfl, ?_⟩
    rw [claveDate_fecha_normalizada unica _ rfl]
    exact hclave unica (List.mem_singleton.mpr rfl)
  | primera :: segunda :: resto, _, hclave =>
    rw [procesarGrupo_varios]
    refine ⟨_, rfl, ?_⟩
    rw [claveDate_fecha_normalizada primera _ rfl]
    exact hclave primera (List.mem_cons_self _ _)

theorem claves_procesarGrupos (operarioId : String) (idNuevo : Nat)
    (grupos : List (Int × List JornadaDoc))
    (hgrupos : ∀ g ∈ grupos, g.2 ≠ [] ∧ ∀ j ∈ g.2, claveDate j = g.1) :
    ((procesarGrupos operarioId idNuevo grupos).flatMap fun r => r.jornadas).map claveDate
      = grupos.map Prod.fst := by
  induction grupos generalizing idNuevo with
  | nil => simp [procesarGrupos]
  | cons g resto ih =>
    obtain ⟨c, js⟩ := g
    obtain ⟨hne, hclave⟩ := hgrupos (c, js) (List.mem_cons_self _ _)
    obtain ⟨s, hs, hsc⟩ := jornadas_procesarGrupo operarioId idNuevo js c hne hclave
    simp only [procesarGrupos, List.flatMap_cons, List.map_append, hs, List.map_cons,
      List.map_nil, hsc, List.singleton_append]
    rw [ih _ (fun g hg => hgrupos g (List.mem_cons_of_mem _ hg))]

theorem crear_mem_procesarGrupos (operarioId : String) (idNuevo : Nat)
    (grupos : List (Int × List JornadaDoc)) (jornada : JornadaDoc)
    (h : Operacion.crear jornada
      ∈ (procesarGrupos operarioId idNuevo grupos).flatMap fun r => r.operaciones) :
    idNuevo ≤ jornada._id := by
  induction grupos generalizing idNuevo with
  | nil => simp [procesarGrupos] at h
  | cons g resto ih =>
    obtain ⟨c, js⟩ := g
    simp only [procesarGrupos, List.flatMap_cons, List.mem_append] at h
    rcases h with h | h
    · exact le_of_eq (crear_mem_procesarGrupo _ _ _ _ h).1.symm
    · have := ih _ h
      by_cases hlen : js.length > 1
      · simp only [hlen, if_true] at this
        omega
      · simp only [hlen, if_false] at this
        exact this

theorem delete_mem_procesarGrupos (operarioId : String) (idNuevo : Nat)
    (grupos : List (Int × List JornadaDoc)) (x : Nat) :
    Operacion.findByIdAndDelete x
        ∈ (procesarGrupos operarioId idNuevo grupos).flatMap (fun r => r.operaciones)
      ↔ ∃ g ∈ grupos, g.2.length > 1 ∧ ∃ j ∈ g.2, j._id = x := by
  induction grupos generalizing idNuevo with
  | nil => simp [procesarGrupos]
  | cons g resto ih =>
    obtain ⟨c, js⟩ := g
    simp only [procesarGrupos, List.flatMap_cons, List.mem_append, delete_mem_procesarGrupo, ih,
      List.mem_cons, exists_eq_or_imp]

theorem procesarGrupos_split (operarioId : String) (idNuevo : Nat)
    (grupos : List (Int × List JornadaDoc)) (g : Int × List JornadaDoc) (hg : g ∈ grupos) :
    ∃ antes despues m, idNuevo ≤ m
      ∧ ((procesarGrupos operarioId idNuevo grupos).flatMap fun r => r.operaciones)
          = antes ++ (procesarGrupo operarioId m g.2).operaciones ++ despues
      ∧ (∀ j, Operacion.crear j ∈ antes → j._id < m)
      ∧ (∀ s ∈ (procesarGrupo operarioId m g.2).jornadas,
          s ∈ (procesarGrupos operarioId idNuevo grupos).flatMap fun r => r.jornadas) := by
  induction grupos generalizing idNuevo with
  | nil => exact absurd hg (List.not_mem_nil _)
  | cons g0 resto ih =>
    obtain ⟨c0, js0⟩ := g0
    rcases List.mem_cons.mp hg with h | h
    · subst h
      refine ⟨[], (procesarGrupos operarioId (if js0.length > 1 then idNuevo + 1 else idNuevo)
        resto).flatMap (fun r => r.operaciones), idNuevo, le_refl _, ?_, ?_, ?_⟩
      · simp only [procesarGrupos, List.flatMap_cons, List.nil_append]
      · intro j hj
        exact absurd hj (List.not_mem_nil _)
      · intro s hs
        simp only [procesarGrupos, List.flatMap_cons, List.mem_append]
        exact Or.inl hs
    · obtain ⟨antes, despues, m, hm, hops, hantes, hjs⟩ :=
        ih (if js0.length > 1 then idNuevo + 1 else idNuevo) h
      have hle : idNuevo ≤ m := by
        by_cases hlen : js0.length > 1
        · simp only [hlen, if_true] at hm
          omega
        · simp only [hlen, if_false] at hm
          exact hm
      refine ⟨(procesarGrupo operarioId idNuevo js0).operaciones ++ antes, despues, m, hle,
        ?_, ?_, ?_⟩
      · simp only [procesarGrupos, List.flatMap_cons, hops, List.append_assoc]
      · intro j hj
        rcases List.mem_append.mp hj with hj | hj
        · obtain ⟨hid, hlen⟩ := crear_mem_procesarGrupo _ _ _ _ hj
          simp only [hlen, if_true] at hm
          omega
        · exact hantes j hj
      · intro s hs
        simp only [procesarGrupos, List.flatMap_cons, List.mem_append]
        exact Or.inr (hjs s hs)

theorem mem_ids_foldl_aplicar (operaciones : List Operacion) (almacen : List JornadaDoc)
    (x : Nat) (h : x ∈ (operaciones.foldl aplicar almacen).map fun d => d._id) :
    (x ∈ almacen.map (fun d => d._id) ∧ Operacion.findByIdAndDelete x ∉ operaciones)
      ∨ ∃ j, Operacion.crear j ∈ operaciones ∧ j._id = x := by
  induction operaciones generalizing almacen with
  | nil =>
    simp only [List.foldl_nil] at h
    exact Or.inl ⟨h, List.not_mem_nil _⟩
  | cons o resto ih =>
    rw [List.foldl_cons] at h
    rcases ih (aplicar almacen o) h with ⟨hx, hno⟩ | ⟨j, hj, hid⟩
    · cases o with
      | findByIdAndDelete y =>
        simp only [aplicar, List.mem_map, List.mem_filter, decide_eq_true_eq] at hx
        obtain ⟨d, ⟨hd, hne⟩, hdx⟩ := hx
        refine Or.inl ⟨List.mem_map.mpr ⟨d, hd, hdx⟩, ?_⟩
        intro hmem
        rcases List.mem_cons.mp hmem with heq | hmem
        · injection heq with heq
          exact hne (hdx.trans heq)
        · exact hno hmem
      | crear nueva =>
        simp only [aplicar, List.map_append, List.mem_append, List.map_cons, List.map_nil,
          List.mem_singleton] at hx
        rcases hx with hx | hx
        · refine Or.inl ⟨hx, ?_⟩
          intro hmem
          rcases List.mem_cons.mp hmem with heq | hmem
          · exact Operacion.noConfusion heq
          · exact hno hmem
        · exact Or.inr ⟨nueva, List.mem_cons_self _ _, hx.symm⟩
      | guardar guardada =>
        simp only [aplicar, List.mem_map] at hx
        obtain ⟨d', ⟨d, hd, hd'⟩, hdx⟩ := hx
        have hid : d._id = x := by
          by_cases hc : d._id = guardada._id
          · rw [if_pos hc] at hd'
            rw [← hdx, ← hd', hc]
          · rw [if_neg hc] at hd'
            rw [← hdx, ← hd']
        refine Or.inl ⟨List.mem_map.mpr ⟨d, hd, hid⟩, ?_⟩
        intro hmem
        rcases List.mem_cons.mp hmem with heq | hmem
        · exact Operacion.noConfusion heq
        · exact hno hmem
    · exact Or.inr ⟨j, List.mem_cons_of_mem _ hj, hid⟩

theorem filter_clave_unico (l : List JornadaDoc) (s : JornadaDoc)
    (hnodup : (l.map claveDate).Nodup) (hs : s ∈ l) :
    (l.filter fun j => decide (claveDate j = claveDate s)) = [s] := by
  induction l with
  | nil => exact absurd hs (List.not_mem_nil _)
  | cons a resto ih =>
    rw [List.map_cons, List.nodup_cons] at hnodup
    rcases List.mem_cons.mp hs with h | h
    · subst h
      have hnil : (resto.filter fun j => decide (claveDate j = claveDate s)) = [] := by
        apply List.filter_eq_nil_iff.mpr
        intro j hj hc
        apply hnodup.1
        rw [← of_decide_eq_true hc]
        exact List.mem_map_of_mem claveDate hj
      simp [List.filter_cons, hnil]
    · have hne : claveDate a ≠ claveDate s := by
        intro heq
        apply hnodup.1
        rw [heq]
        exact List.mem_map_of_mem claveDate h
      simp only [List.filter_cons, hne, decide_False, Bool.false_eq_true, if_false]
      exact ih hnodup.2 h

theorem ordenarPorFecha_perm (jornadas : List JornadaDoc) :
    List.Perm (ordenarPorFecha jornadas) jornadas :=
  List.perm_insertionSort _ jornadas

theorem grupos_bien_formados (jornadas : List JornadaDoc) :
    ∀ g ∈ jornadasPorFecha jornadas, g.2 ≠ [] ∧ ∀ j ∈ g.2, claveDate j = g.1 := by
  intro g hg
  obtain ⟨hfiltro, hne, _⟩ := (jornadasPorFecha_spec jornadas).2.1 g hg
  refine ⟨hne, fun j hj => ?_⟩
  rw [hfiltro] at hj
  exact of_decide_eq_true (List.mem_filter.mp hj).2

theorem consolidar_varias (operarioId : String) (idNuevo : Nat) (jornadas : List JornadaDoc)
    (hlen : 1 < jornadas.length) :
    consolidarJornadasDuplicadas operarioId idNuevo jornadas
      = { operaciones :=
            (procesarGrupos operarioId idNuevo (jornadasPorFecha jornadas)).flatMap
              fun r => r.operaciones,
          resultado := ordenarPorFecha
            ((procesarGrupos operarioId idNuevo (jornadasPorFecha jornadas)).flatMap
              fun r => r.jornadas) } := by
  unfold consolidarJornadasDuplicadas
  rw [if_neg (by omega)]

theorem consolidar_pocas (operarioId : String) (idNuevo : Nat) (jornadas : List JornadaDoc)
    (hlen : jornadas.length ≤ 1) :
    consolidarJornadasDuplicadas operarioId idNuevo jornadas
      = { operaciones := [], resultado := jornadas } := by
  unfold consolidarJornadasDuplicadas
  rw [if_pos hlen]

theorem claves_resultado (operarioId : String) (idNuevo : Nat) (jornadas : List JornadaDoc) :
    ((consolidarJornadasDuplicadas operarioId idNuevo jornadas).resultado.map claveDate).Nodup
      ∧ ∀ c, c ∈ (consolidarJornadasDuplicadas operarioId idNuevo jornadas).resultado.map claveDate
          ↔ c ∈ jornadas.map claveDate := by
  by_cases hlen : jornadas.length ≤ 1
  · rw [consolidar_pocas _ _ _ hlen]
    refine ⟨?_, fun c => Iff.rfl⟩
    match jornadas, hlen with
    | [], _ => simp
    | [j], _ => simp
    | _ :: _ :: _, hlen => simp at hlen
  · rw [consolidar_varias _ _ _ (by omega)]
    have hperm := (ordenarPorFecha_perm
      ((procesarGrupos operarioId idNuevo (jornadasPorFecha jornadas)).flatMap
        fun r => r.jornadas)).map claveDate
    have hclaves := claves_procesarGrupos operarioId idNuevo (jornadasPorFecha jornadas)
      (grupos_bien_formados jornadas)
    obtain ⟨hnodup, _, hmem⟩ := jornadasPorFecha_spec jornadas
    constructor
    · rw [hperm.nodup_iff, hclaves]
      exact hnodup
    · intro c
      rw [hperm.mem_iff, hclaves]
      exact hmem c

theorem jornadas_procesarGrupo_varias (operarioId : String) (idNuevo : Nat)
    (jornadasDelDia : List JornadaDoc) (clave : Int) (hlen : 2 ≤ jornadasDelDia.length)
    (hclave : ∀ j ∈ jornadasDelDia, claveDate j = clave) :
    ∃ s, (procesarGrupo operarioId idNuevo jornadasDelDia).jornadas = [s]
      ∧ s.registros.map RegistroRef.comoString = registrosCombinados jornadasDelDia
      ∧ claveDate s = clave := by
  match jornadasDelDia, hlen, hclave with
  | [], hlen, _ => simp at hlen
  | [_], hlen, _ => simp at hlen
  | primera :: segunda :: resto, _, hclave =>
    rw [procesarGrupo_varios]
    refine ⟨_, rfl, ?_, ?_⟩
    · simp only [List.map_map]
      have : (RegistroRef.comoString ∘ RegistroRef.documento) = fun x => x := by
        funext x
        rfl
      rw [this, List.map_id']
    · rw [claveDate_fecha_normalizada primera _ rfl]
      exact hclave primera (List.mem_cons_self _ _)

/-! ## Claims about the merged `registros` -/

/-- C12: in the union built by `consolidarJornadasDuplicadas` a populated
document and a bare identifier of the same activity are the same element:
the merged list holds every identifier of the group exactly once, and
replacing references by another representation of the same identifier does
not change the merged list. -/
theorem C12_identifier_deduplication (jornadasDelDia : List JornadaDoc)
    (otra : RegistroRef → RegistroRef)
    (hotra : ∀ registro, (otra registro).comoString = registro.comoString) :
    (registrosCombinados jornadasDelDia).Nodup
      ∧ (∀ id, id ∈ registrosCombinados jornadasDelDia
          ↔ ∃ jornada ∈ jornadasDelDia, ∃ registro ∈ jornada.registros,
              registro.comoString = id)
      ∧ (∀ id, (RegistroRef.documento id).comoString = (RegistroRef.identificador id).comoString)
      ∧ registrosCombinados
          (jornadasDelDia.map fun jornada =>
            { jornada with registros := jornada.registros.map otra })
        = registrosCombinados jornadasDelDia := by
  refine ⟨arrayFromSet_nodup _, mem_registrosCombinados jornadasDelDia, fun _ => rfl, ?_⟩
  unfold registrosCombinados
  congr 1
  induction jornadasDelDia with
  | nil => rfl
  | cons jornada resto ih =>
    simp only [List.map_cons, List.flatMap_cons, ih, List.map_map]
    congr 1
    apply List.map_congr_left
    intro registro _
    exact hotra registro

/-- C12 at the three jornadas with the sets `{a, b}`, `{b, c}` and `{d}`,
every reference turned into a populated document: the merged list is
`a, b, c, d` either way. -/
theorem C12_identifier_deduplication_witness :
    registrosCombinados
        (tresJornadasMismoDia.map fun jornada =>
          { jornada with
            registros := jornada.registros.map (fun r => RegistroRef.documento r.comoString) })
      = ["a", "b", "c", "d"] :=
  (C12_identifier_deduplication tresJornadasMismoDia
    (fun registro => RegistroRef.documento registro.comoString)
    (fun _ => rfl)).2.2.2.trans (by decide)

/-! ## Claims about `consolidarJornadasDuplicadas` -/

/-- C11: for a day on which two or more input jornadas fall, the returned
list has exactly one jornada of that day; its `registros` hold each
identifier referenced by a member of the group exactly once and nothing
else; and when every write succeeded no member of the group is left in the
collection. New `_id`s are taken above those of the input. -/
theorem C11_consolidation_merge (operarioId : String) (idNuevo : Nat)
    (jornadas almacen : List JornadaDoc) (clave : Int)
    (hnuevos : ∀ j ∈ jornadas, j._id < idNuevo)
    (hvarias : 2 ≤ (jornadas.filter fun j => decide (claveDate j = clave)).length) :
    ∃ s,
      ((consolidarJornadasDuplicadas operarioId idNuevo jornadas).resultado.filter
          fun j => decide (claveDate j = clave)) = [s]
        ∧ (s.registros.map RegistroRef.comoString).Nodup
        ∧ (∀ id, id ∈ s.registros.map RegistroRef.comoString
            ↔ ∃ j ∈ jornadas, claveDate j = clave ∧ ∃ r ∈ j.registros, r.comoString = id)
        ∧ (∀ j ∈ jornadas, claveDate j = clave →
            ∀ d ∈ ejecutar almacen
                (consolidarJornadasDuplicadas operarioId idNuevo jornadas).operaciones
                (consolidarJornadasDuplicadas operarioId idNuevo jornadas).operaciones.length,
              d._id ≠ j._id) := by
  have hlen : 1 < jornadas.length := by
    have := List.length_filter_le (fun j => decide (claveDate j = clave)) jornadas
    omega
  obtain ⟨hnodupG, hspec, hclaves⟩ := jornadasPorFecha_spec jornadas
  -- the entry of the day
  have hclave : clave ∈ (jornadasPorFecha jornadas).map Prod.fst := by
    rw [hclaves]
    match hfil : jornadas.filter fun j => decide (claveDate j = clave), hvarias with
    | [], h => simp at h
    | j :: _, _ =>
      have hj : j ∈ jornadas.filter fun j => decide (claveDate j = clave) := by
        rw [hfil]
        exact List.mem_cons_self _ _
      obtain ⟨hj1, hj2⟩ := List.mem_filter.mp hj
      exact List.mem_map.mpr ⟨j, hj1, of_decide_eq_true hj2⟩
  obtain ⟨g, hg, hg1⟩ := List.mem_map.mp hclave
  obtain ⟨hfiltro, _, _⟩ := hspec g hg
  rw [hg1] at hfiltro
  obtain ⟨antes, despues, m, hm, hops, _, hjs⟩ :=
    procesarGrupos_split operarioId idNuevo (jornadasPorFecha jornadas) g hg
  rw [consolidar_varias _ _ _ hlen]
  simp only
  have hmiembros : ∀ j ∈ g.2, claveDate j = clave := by
    intro j hj
    rw [hfiltro] at hj
    exact of_decide_eq_true (List.mem_filter.mp hj).2
  obtain ⟨s, hs, hregistros, hsc⟩ := jornadas_procesarGrupo_varias operarioId m g.2 clave
    (by rw [hfiltro]; exact hvarias) hmiembros
  refine ⟨s, ?_, ?_, ?_, ?_⟩
  · -- exactly one jornada of the day
    have hmem := hjs s (by rw [hs]; exact List.mem_singleton.mpr rfl)
    have hres := (ordenarPorFecha_perm _).mem_iff.mpr hmem
    have hnodup := (claves_resultado operarioId idNuevo jornadas).1
    rw [consolidar_varias _ _ _ hlen] at hnodup
    have hunico := filter_clave_unico _ _ hnodup hres
    rw [hsc] at hunico
    exact hunico
  · rw [hregistros]
    exact arrayFromSet_nodup _
  · intro id
    rw [hregistros, hfiltro, mem_registrosCombinados]
    constructor
    · rintro ⟨j, hj, r, hr, hid⟩
      obtain ⟨hj1, hj2⟩ := List.mem_filter.mp hj
      exact ⟨j, hj1, of_decide_eq_true hj2, r, hr, hid⟩
    · rintro ⟨j, hj, hc, r, hr, hid⟩
      exact ⟨j, List.mem_filter.mpr ⟨hj, by simp [hc]⟩, r, hr, hid⟩
  · -- the members are gone
    intro j hj hc d hd hid
    have hjg : j ∈ g.2 := by
      rw [hfiltro]
      exact List.mem_filter.mpr ⟨hj, by simp [hc]⟩
    have hdel : Operacion.findByIdAndDelete j._id
        ∈ (procesarGrupos operarioId idNuevo (jornadasPorFecha jornadas)).flatMap
            fun r => r.operaciones :=
      (delete_mem_procesarGrupos _ _ _ _).mpr
        ⟨g, hg, by rw [hfiltro]; exact hvarias, j, hjg, rfl⟩
    unfold ejecutar at hd
    rw [List.take_length] at hd
    have hmem : j._id ∈ (List.foldl aplicar almacen
        ((procesarGrupos operarioId idNuevo (jornadasPorFecha jornadas)).flatMap
          fun r => r.operaciones)).map fun d => d._id :=
      List.mem_map.mpr ⟨d, hd, hid⟩
    rcases mem_ids_foldl_aplicar _ _ _ hmem with ⟨_, hno⟩ | ⟨nueva, hnueva, hnid⟩
    · exact hno hdel
    · have := crear_mem_procesarGrupos _ _ _ _ hnueva
      have := hnuevos j hj
      omega

/-- C11 at the three jornadas of one day with the sets `{a, b}`, `{b, c}` and
`{d}`: one jornada is returned, with `a, b, c, d`, and the collection that
held the three holds only the new one. -/
theorem C11_consolidation_merge_witness :
    (consolidarJornadasDuplicadas "op1" 10 tresJornadasMismoDia).resultado.map
        (fun j => j.registros.map RegistroRef.comoString) = [["a", "b", "c", "d"]]
      ∧ (ejecutar tresJornadasMismoDia
          (consolidarJornadasDuplicadas "op1" 10 tresJornadasMismoDia).operaciones 4).map
            (fun d => d._id) = [10]
      ∧ ∃ s,
        ((consolidarJornadasDuplicadas "op1" 10 tresJornadasMismoDia).resultado.filter
            fun j => decide (claveDate j = 19000)) = [s]
          ∧ (s.registros.map RegistroRef.comoString).Nodup
          ∧ (∀ id, id ∈ s.registros.map RegistroRef.comoString
              ↔ ∃ j ∈ tresJornadasMismoDia, claveDate j = 19000
                  ∧ ∃ r ∈ j.registros, r.comoString = id)
          ∧ (∀ j ∈ tresJornadasMismoDia, claveDate j = 19000 →
              ∀ d ∈ ejecutar tresJornadasMismoDia
                  (consolidarJornadasDuplicadas "op1" 10 tresJornadasMismoDia).operaciones
                  (consolidarJornadasDuplicadas "op1" 10 tresJornadasMismoDia).operaciones.length,
                d._id ≠ j._id) :=
  ⟨by decide, by decide,
    C11_consolidation_merge "op1" 10 tresJornadasMismoDia tresJornadasMismoDia 19000
      (by decide) (by decide)⟩

/-- C13: the list returned by `consolidarJornadasDuplicadas` has no two
jornadas with the same day key, and its day keys are those of the input: it
has exactly one jornada for each distinct day key of the input. -/
theorem C13_one_shift_per_day (operarioId : String) (idNuevo : Nat)
    (jornadas : List JornadaDoc) :
    ((consolidarJornadasDuplicadas operarioId idNuevo jornadas).resultado.map claveDate).Nodup
      ∧ (∀ c, c ∈ (consolidarJornadasDuplicadas operarioId idNuevo jornadas).resultado.map
            claveDate ↔ c ∈ jornadas.map claveDate)
      ∧ (∀ j ∈ jornadas, ∃ s,
          ((consolidarJornadasDuplicadas operarioId idNuevo jornadas).resultado.filter
            fun r => decide (claveDate r = claveDate j)) = [s]) := by
  obtain ⟨hnodup, hmem⟩ := claves_resultado operarioId idNuevo jornadas
  refine ⟨hnodup, hmem, fun j hj => ?_⟩
  have hc : claveDate j
      ∈ (consolidarJornadasDuplicadas operarioId idNuevo jornadas).resultado.map claveDate :=
    (hmem _).mpr (List.mem_map_of_mem claveDate hj)
  obtain ⟨s, hs, hsc⟩ := List.mem_map.mp hc
  refine ⟨s, ?_⟩
  rw [← hsc]
  exact filter_clave_unico _ s hnodup hs

/-- C13 at the three jornadas of one day: the returned list has the single
day key 19000. -/
theorem C13_one_shift_per_day_witness :
    ((consolidarJornadasDuplicadas "op1" 10 tresJornadasMismoDia).resultado.map claveDate).Nodup
      ∧ (consolidarJornadasDuplicadas "op1" 10 tresJornadasMismoDia).resultado.map claveDate
        = [19000] :=
  ⟨(C13_one_shift_per_day "op1" 10 tresJornadasMismoDia).1, by decide⟩

/-- C16: for an input of two or more jornadas the returned list is sorted by
`fecha` in descending order: each jornada has a `fecha` at least that of
every jornada after it. -/
theorem C16_output_order (operarioId : String) (idNuevo : Nat) (jornadas : List JornadaDoc)
    (hlen : 2 ≤ jornadas.length) :
    List.Pairwise (fun a b => b.fecha ≤ a.fecha)
      (consolidarJornadasDuplicadas operarioId idNuevo jornadas).resultado := by
  rw [consolidar_varias _ _ _ (by omega)]
  haveI : IsTotal JornadaDoc (fun a b => b.fecha ≤ a.fecha) := ⟨fun a b => le_total _ _⟩
  haveI : IsTrans JornadaDoc (fun a b => b.fecha ≤ a.fecha) :=
    ⟨fun a b c hab hbc => le_trans hbc hab⟩
  exact List.sorted_insertionSort (fun a b : JornadaDoc => b.fecha ≤ a.fecha) _

/-- C16 at the jornadas of days 19000 and 19001: day 19001 comes first. -/
theorem C16_output_order_witness :
    List.Pairwise (fun a b => b.fecha ≤ a.fecha)
        (consolidarJornadasDuplicadas "op1" 10 dosJornadasDistintoDia).resultado
      ∧ (consolidarJornadasDuplicadas "op1" 10 dosJornadasDistintoDia).resultado.map
          (fun j => j.fecha) = [MS_DIA * 19001, MS_DIA * 19000] :=
  ⟨C16_output_order "op1" 10 dosJornadasDistintoDia (by decide), by decide⟩

/-! ## Input without duplicates -/

theorem agregarAGrupo_clave_nueva (grupos : List (Int × List JornadaDoc)) (clave : Int)
    (jornada : JornadaDoc) (hnueva : clave ∉ grupos.map Prod.fst) :
    agregarAGrupo grupos clave jornada = grupos ++ [(clave, [jornada])] := by
  induction grupos with
  | nil => rfl
  | cons g resto ih =>
    obtain ⟨c, js⟩ := g
    rw [List.map_cons, List.mem_cons, not_or] at hnueva
    have hne : ¬ c = clave := fun h => hnueva.1 h.symm
    simp only [agregarAGrupo, hne, if_false, ih hnueva.2, List.cons_append]

theorem foldl_agregarAGrupo_sin_duplicados (jornadas previas : List JornadaDoc)
    (hnodup : ((previas ++ jornadas).map claveDate).Nodup) :
    jornadas.foldl (fun gs j => agregarAGrupo gs (claveDate j) j)
        (previas.map fun j => (claveDate j, [j]))
      = (previas ++ jornadas).map fun j => (claveDate j, [j]) := by
  induction jornadas generalizing previas with
  | nil => simp
  | cons j resto ih =>
    rw [List.foldl_cons]
    have hnueva : claveDate j ∉ (previas.map fun j => (claveDate j, [j])).map Prod.fst := by
      rw [List.map_map]
      intro hmem
      rw [List.map_append, List.map_cons, List.nodup_append] at hnodup
      exact hnodup.2.2 hmem (List.mem_cons_self _ _)
    rw [agregarAGrupo_clave_nueva _ _ _ hnueva]
    have h := ih (previas ++ [j]) (by simpa [List.append_assoc] using hnodup)
    simpa [List.append_assoc] using h

theorem jornadasPorFecha_sin_duplicados (jornadas : List JornadaDoc)
    (hnodup : (jornadas.map claveDate).Nodup) :
    jornadasPorFecha jornadas = jornadas.map fun j => (claveDate j, [j]) := by
  have h := foldl_agregarAGrupo_sin_duplicados jornadas [] (by simpa using hnodup)
  simpa [jornadasPorFecha] using h

theorem procesarGrupos_unitarios (operarioId : String) (idNuevo : Nat)
    (jornadas : List JornadaDoc) :
    procesarGrupos operarioId idNuevo (jornadas.map fun j => (claveDate j, [j]))
      = jornadas.map fun j => procesarGrupo operarioId idNuevo [j] := by
  induction jornadas with
  | nil => rfl
  | cons j resto ih =>
    simp only [List.map_cons, procesarGrupos, List.length_singleton, gt_iff_lt, lt_self_iff_false,
      if_false, ih]

theorem ids_foldl_guardar (operaciones : List Operacion) (almacen : List JornadaDoc)
    (hguardar : ∀ o ∈ operaciones, ∃ j, o = Operacion.guardar j) :
    (operaciones.foldl aplicar almacen).map (fun d => d._id) = almacen.map fun d => d._id := by
  induction operaciones generalizing almacen with
  | nil => rfl
  | cons o resto ih =>
    rw [List.foldl_cons, ih _ (fun o ho => hguardar o (List.mem_cons_of_mem _ ho))]
    obtain ⟨j, hj⟩ := hguardar o (List.mem_cons_self _ _)
    rw [hj]
    simp only [aplicar, List.map_map]
    apply List.map_congr_left
    intro d _
    simp only [Function.comp_apply]
    by_cases hc : d._id = j._id
    · rw [if_pos hc, hc]
    · rw [if_neg hc]

theorem jornadas_unitarios (operarioId : String) (idNuevo : Nat) (jornadas : List JornadaDoc) :
    ((jornadas.map fun j => procesarGrupo operarioId idNuevo [j]).flatMap fun r => r.jornadas)
      = jornadas.map fun j => { j with fecha := normalizarFecha j.fecha } := by
  induction jornadas with
  | nil => rfl
  | cons j resto ih =>
    simp only [List.map_cons, List.flatMap_cons, ih]
    rw [procesarGrupo_uno]
    rfl

theorem consolidar_sin_duplicados (operarioId : String) (idNuevo : Nat)
    (jornadas : List JornadaDoc) (hnodup : (jornadas.map claveDate).Nodup)
    (hlen : 1 < jornadas.length) :
    consolidarJornadasDuplicadas operarioId idNuevo jornadas
      = { operaciones :=
            (jornadas.map fun j => procesarGrupo operarioId idNuevo [j]).flatMap
              fun r => r.operaciones,
          resultado := ordenarPorFecha
            (jornadas.map fun j => { j with fecha := normalizarFecha j.fecha }) } := by
  rw [consolidar_varias _ _ _ hlen, jornadasPorFecha_sin_duplicados _ hnodup,
    procesarGrupos_unitarios, jornadas_unitarios]

/-- C14: on an input in which no two jornadas share a day key,
`consolidarJornadasDuplicadas` awaits no delete and no creation: each write
is the `save()` of an input jornada whose `fecha` was not normalized, with
only its `fecha` replaced; the `_id`s in the collection stay the same at
every point; and the returned jornadas are the input ones up to order and
`fecha`, each with its own or its normalized `fecha`. -/
theorem C14_no_op_without_duplicates (operarioId : String) (idNuevo : Nat)
    (jornadas almacen : List JornadaDoc) (hnodup : (jornadas.map claveDate).Nodup) :
    (∀ o ∈ (consolidarJornadasDuplicadas operarioId idNuevo jornadas).operaciones,
        ∃ j ∈ jornadas, j.fecha ≠ normalizarFecha j.fecha
          ∧ o = Operacion.guardar { j with fecha := normalizarFecha j.fecha })
      ∧ (∀ exitos,
          (ejecutar almacen (consolidarJornadasDuplicadas operarioId idNuevo jornadas).operaciones
            exitos).map (fun d => d._id) = almacen.map fun d => d._id)
      ∧ List.Perm
          ((consolidarJornadasDuplicadas operarioId idNuevo jornadas).resultado.map
            fun j => { j with fecha := 0 })
          (jornadas.map fun j => { j with fecha := 0 })
      ∧ (∀ s ∈ (consolidarJornadasDuplicadas operarioId idNuevo jornadas).resultado,
          ∃ j ∈ jornadas, s = j ∨ s = { j with fecha := normalizarFecha j.fecha }) := by
  have hoperaciones : ∀ o ∈ (consolidarJornadasDuplicadas operarioId idNuevo jornadas).operaciones,
      ∃ j ∈ jornadas, j.fecha ≠ normalizarFecha j.fecha
        ∧ o = Operacion.guardar { j with fecha := normalizarFecha j.fecha } := by
    by_cases hlen : jornadas.length ≤ 1
    · rw [consolidar_pocas _ _ _ hlen]
      intro o ho
      exact absurd ho (List.not_mem_nil _)
    · rw [consolidar_sin_duplicados _ _ _ hnodup (by omega)]
      intro o ho
      simp only [List.mem_flatMap, List.mem_map] at ho
      obtain ⟨r, ⟨j, hj, hr⟩, hor⟩ := ho
      rw [← hr, procesarGrupo_uno] at hor
      by_cases hf : j.fecha ≠ normalizarFecha j.fecha
      · simp only [if_pos hf, List.mem_singleton] at hor
        exact ⟨j, hj, hf, hor⟩
      · simp only [if_neg hf] at hor
        exact absurd hor (List.not_mem_nil _)
  refine ⟨hoperaciones, ?_, ?_, ?_⟩
  · intro exitos
    unfold ejecutar
    apply ids_foldl_guardar
    intro o ho
    obtain ⟨j, _, _, hj⟩ := hoperaciones o (List.mem_of_mem_take ho)
    exact ⟨_, hj⟩
  · by_cases hlen : jornadas.length ≤ 1
    · rw [consolidar_pocas _ _ _ hlen]
    · rw [consolidar_sin_duplicados _ _ _ hnodup (by omega)]
      refine ((ordenarPorFecha_perm _).map _).trans ?_
      rw [List.map_map]
      exact List.Perm.refl _
  · by_cases hlen : jornadas.length ≤ 1
    · rw [consolidar_pocas _ _ _ hlen]
      intro s hs
      exact ⟨s, hs, Or.inl rfl⟩
    · rw [consolidar_sin_duplicados _ _ _ hnodup (by omega)]
      intro s hs
      obtain ⟨j, hj, hsj⟩ := List.mem_map.mp ((ordenarPorFecha_perm _).mem_iff.mp hs)
      exact ⟨j, hj, Or.inr hsj.symm⟩

/-- C14 at the jornadas of days 19000 and 19001, the first stored with a time
of day: the only write is the `save()` of the first with its `fecha`
normalized, and both are returned with their `_id` and `registros`. -/
theorem C14_no_op_without_duplicates_witness :
    (consolidarJornadasDuplicadas "op1" 10 dosJornadasDistintoDia).operaciones
        = [Operacion.guardar
            { jornadaDe 1 (MS_DIA * 19000 + MS_MINUTO * 300) ["a"] with fecha := MS_DIA * 19000 }]
      ∧ (consolidarJornadasDuplicadas "op1" 10 dosJornadasDistintoDia).resultado
        = [jornadaDe 2 (MS_DIA * 19001) ["b"],
            { jornadaDe 1 (MS_DIA * 19000 + MS_MINUTO * 300) ["a"] with fecha := MS_DIA * 19000 }]
      ∧ List.Perm
          ((consolidarJornadasDuplicadas "op1" 10 dosJornadasDistintoDia).resultado.map
            fun j => { j with fecha := 0 })
          (dosJornadasDistintoDia.map fun j => { j with fecha := 0 }) :=
  ⟨by decide, by decide,
    (C14_no_op_without_duplicates "op1" 10 dosJornadasDistintoDia [] (by decide)).2.2.1⟩

/-- C15 fails on the code. A list of exactly one jornada is returned as it
is, without any write, whatever its `fecha`: the jornada of day 19000 stored
with the time 05:00 keeps that `fecha`, which is not the normalized one. The
same jornada given together with a jornada of another day goes through the
loop and is returned, and saved, with its `fecha` normalized. -/
theorem C15_single_shift_not_normalized :
    (∀ (operarioId : String) (idNuevo : Nat) (jornada : JornadaDoc),
        consolidarJornadasDuplicadas operarioId idNuevo [jornada]
          = { operaciones := [], resultado := [jornada] })
      ∧ (consolidarJornadasDuplicadas "op1" 10 unaJornadaSinNormalizar).resultado.map
          (fun j => (j.fecha, normalizarFecha j.fecha))
        = [(MS_DIA * 19000 + MS_MINUTO * 300, MS_DIA * 19000)]
      ∧ (consolidarJornadasDuplicadas "op1" 10 unaJornadaSinNormalizar).operaciones = []
      ∧ (consolidarJornadasDuplicadas "op1" 10 dosJornadasDistintoDia).resultado.map
          (fun j => (j._id, j.fecha, normalizarFecha j.fecha))
        = [(2, MS_DIA * 19001, MS_DIA * 19001), (1, MS_DIA * 19000, MS_DIA * 19000)]
      ∧ (consolidarJornadasDuplicadas "op1" 10 dosJornadasDistintoDia).operaciones
        = [Operacion.guardar
            { jornadaDe 1 (MS_DIA * 19000 + MS_MINUTO * 300) ["a"] with
              fecha := MS_DIA * 19000 }] := by
  refine ⟨fun _ _ _ => rfl, ?_, ?_, ?_, ?_⟩ <;> decide

/-! ## Failing writes -/

theorem operaciones_procesarGrupo_varias (operarioId : String) (idNuevo : Nat)
    (jornadasDelDia : List JornadaDoc) (hlen : 1 < jornadasDelDia.length) :
    ∃ nueva, (procesarGrupo operarioId idNuevo jornadasDelDia).operaciones
        = jornadasDelDia.map (fun j => Operacion.findByIdAndDelete j._id)
          ++ [Operacion.crear nueva]
      ∧ nueva._id = idNuevo := by
  match jornadasDelDia, hlen with
  | [], hlen => simp at hlen
  | [_], hlen => simp at hlen
  | primera :: segunda :: resto, _ =>
    rw [procesarGrupo_varios]
    exact ⟨_, rfl, rfl⟩

theorem miembros_de_grupo (jornadas : List JornadaDoc) (g : Int × List JornadaDoc)
    (hg : g ∈ jornadasPorFecha jornadas) (j : JornadaDoc) (hj : j ∈ g.2) : j ∈ jornadas := by
  obtain ⟨hfiltro, _, _⟩ := (jornadasPorFecha_spec jornadas).2.1 g hg
  rw [hfiltro] at hj
  exact (List.mem_filter.mp hj).1

/-- C17: for every group of two or more jornadas of one day, the writes
awaited by `consolidarJornadasDuplicadas` hold, in this order and next to
each other, the deletion of each member of the group and then the creation
of the consolidated jornada; the deleted `_id`s are those of the members of
such groups; the `_id` of the new jornada is not that of a member and is
never deleted; and in the collection reached after any number of successful
writes, the next one failing or not, the consolidated jornada is not there
together with a member of its group. New `_id`s are taken above those of
the input and of the collection. -/
theorem C17_no_partial_merge (operarioId : String) (idNuevo : Nat)
    (jornadas almacen : List JornadaDoc)
    (hjornadas : ∀ j ∈ jornadas, j._id < idNuevo) (halmacen : ∀ d ∈ almacen, d._id < idNuevo)
    (g : Int × List JornadaDoc) (hg : g ∈ jornadasPorFecha jornadas) (hvarias : 1 < g.2.length) :
    ∃ antes despues nueva,
      (consolidarJornadasDuplicadas operarioId idNuevo jornadas).operaciones
          = antes ++ g.2.map (fun j => Operacion.findByIdAndDelete j._id)
            ++ [Operacion.crear nueva] ++ despues
        ∧ (∀ j ∈ g.2, j._id ≠ nueva._id)
        ∧ Operacion.findByIdAndDelete nueva._id
            ∉ (consolidarJornadasDuplicadas operarioId idNuevo jornadas).operaciones
        ∧ (∀ x, Operacion.findByIdAndDelete x
              ∈ (consolidarJornadasDuplicadas operarioId idNuevo jornadas).operaciones
            ↔ ∃ otro ∈ jornadasPorFecha jornadas, 1 < otro.2.length ∧ ∃ j ∈ otro.2, j._id = x)
        ∧ (∀ exitos,
            (∃ d ∈ ejecutar almacen
                (consolidarJornadasDuplicadas operarioId idNuevo jornadas).operaciones exitos,
              d._id = nueva._id) →
            ∀ j ∈ g.2, ∀ d ∈ ejecutar almacen
                (consolidarJornadasDuplicadas operarioId idNuevo jornadas).operaciones exitos,
              d._id ≠ j._id) := by
  have hlen : 1 < jornadas.length := by
    obtain ⟨hfiltro, _, _⟩ := (jornadasPorFecha_spec jornadas).2.1 g hg
    have := List.length_filter_le (fun j => decide (claveDate j = g.1)) jornadas
    rw [hfiltro] at hvarias
    omega
  rw [consolidar_varias _ _ _ hlen]
  simp only
  obtain ⟨antes, despues, m, hm, hops, hantes, _⟩ :=
    procesarGrupos_split operarioId idNuevo (jornadasPorFecha jornadas) g hg
  obtain ⟨nueva, hgrupo, hid⟩ := operaciones_procesarGrupo_varias operarioId m g.2 hvarias
  rw [hgrupo, ← List.append_assoc] at hops
  have hborradas : ∀ x, Operacion.findByIdAndDelete x
      ∈ (procesarGrupos operarioId idNuevo (jornadasPorFecha jornadas)).flatMap
          (fun r => r.operaciones)
      ↔ ∃ otro ∈ jornadasPorFecha jornadas, 1 < otro.2.length ∧ ∃ j ∈ otro.2, j._id = x :=
    fun x => delete_mem_procesarGrupos operarioId idNuevo (jornadasPorFecha jornadas) x
  refine ⟨antes, despues, nueva, hops, ?_, ?_, hborradas, ?_⟩
  · intro j hj heq
    have := hjornadas j (miembros_de_grupo jornadas g hg j hj)
    omega
  · intro hmem
    obtain ⟨otro, hotro, _, j, hj, hjid⟩ := (hborradas _).mp hmem
    have := hjornadas j (miembros_de_grupo jornadas otro hotro j hj)
    omega
  · rintro exitos ⟨d, hd, hdid⟩ j hj d2 hd2 hd2id
    unfold ejecutar at hd hd2
    have hnueva := mem_ids_foldl_aplicar _ almacen nueva._id (List.mem_map.mpr ⟨d, hd, hdid⟩)
    have hmiembro := mem_ids_foldl_aplicar _ almacen j._id (List.mem_map.mpr ⟨d2, hd2, hd2id⟩)
    have hjid := hjornadas j (miembros_de_grupo jornadas g hg j hj)
    rcases hnueva with ⟨hen, _⟩ | ⟨creada, hcreada, hcid⟩
    · obtain ⟨d0, hd0, hd0id⟩ := List.mem_map.mp hen
      have := halmacen d0 hd0
      omega
    · -- the creation is among the writes done, so the deletions are too
      have hdel : Operacion.findByIdAndDelete j._id
          ∈ ((procesarGrupos operarioId idNuevo (jornadasPorFecha jornadas)).flatMap
              fun r => r.operaciones).take exitos := by
        rw [hops, List.append_assoc] at hcreada ⊢
        by_cases hk : exitos
            ≤ (antes ++ g.2.map fun j => Operacion.findByIdAndDelete j._id).length
        · rw [List.take_append_of_le_length hk] at hcreada
          rcases List.mem_append.mp (List.mem_of_mem_take hcreada) with h | h
          · have := hantes creada h
            omega
          · obtain ⟨_, _, hx⟩ := List.mem_map.mp h
            exact Operacion.noConfusion hx
        · rw [List.take_append_eq_append_take, List.take_of_length_le (by omega)]
          exact List.mem_append_left _ (List.mem_append_right _
            (List.mem_map.mpr ⟨j, hj, rfl⟩))
      rcases hmiembro with ⟨_, hno⟩ | ⟨otra, hotra, hoid⟩
      · exact hno hdel
      · have := crear_mem_procesarGrupos _ _ _ _ (List.mem_of_mem_take hotra)
        omega

/-- C17 at the three jornadas of one day: the writes are the three deletions
and then the creation, and after 0, 1, 2, 3 and 4 successful writes the
collection holds the `_id`s `1, 2, 3`, then `2, 3`, then `3`, then none,
then `10`. -/
theorem C17_no_partial_merge_witness :
    ((List.range 5).map fun exitos =>
        (ejecutar tresJornadasMismoDia
          (consolidarJornadasDuplicadas "op1" 10 tresJornadasMismoDia).operaciones exitos).map
            fun d => d._id)
        = [[1, 2, 3], [2, 3], [3], [], [10]]
      ∧ ∃ antes despues nueva,
        (consolidarJornadasDuplicadas "op1" 10 tresJornadasMismoDia).operaciones
            = antes ++ tresJornadasMismoDia.map (fun j => Operacion.findByIdAndDelete j._id)
              ++ [Operacion.crear nueva] ++ despues
          ∧ (∀ j ∈ tresJornadasMismoDia, j._id ≠ nueva._id)
          ∧ Operacion.findByIdAndDelete nueva._id
              ∉ (consolidarJornadasDuplicadas "op1" 10 tresJornadasMismoDia).operaciones
          ∧ (∀ x, Operacion.findByIdAndDelete x
                ∈ (consolidarJornadasDuplicadas "op1" 10 tresJornadasMismoDia).operaciones
              ↔ ∃ otro ∈ jornadasPorFecha tresJornadasMismoDia,
                  1 < otro.2.length ∧ ∃ j ∈ otro.2, j._id = x)
          ∧ (∀ exitos,
              (∃ d ∈ ejecutar tresJornadasMismoDia
                  (consolidarJornadasDuplicadas "op1" 10 tresJornadasMismoDia).operaciones exitos,
                d._id = nueva._id) →
              ∀ j ∈ tresJornadasMismoDia, ∀ d ∈ ejecutar tresJornadasMismoDia
                  (consolidarJornadasDuplicadas "op1" 10 tresJornadasMismoDia).operaciones exitos,
                d._id ≠ j._id) :=
  ⟨by decide,
    C17_no_partial_merge "op1" 10 tresJornadasMismoDia tresJornadasMismoDia
      (by decide) (by decide) (19000, tresJornadasMismoDia) (by decide) (by decide)⟩

/-! ## Claims about the stored durations -/

theorem mathRound_minutos_pos (ms : Int) (h : 30000 ≤ ms) : 1 ≤ mathRound ms MS_MINUTO := by
  unfold mathRound MS_MINUTO
  rw [Int.fdiv_eq_ediv _ (by norm_num)]
  omega

theorem tiempoCalculado_suministrado (tiempo horaInicio horaFin : Option Int) (t : Int)
    (ht : tiempo = some t) (hne : t ≠ 0) : tiempoCalculado tiempo horaInicio horaFin = t := by
  unfold tiempoCalculado
  rw [ht]
  simp only [oCero, hne, if_false]

theorem tiempoCalculado_fechas (tiempo : Option Int) (inicio fin : Int)
    (hcero : oCero tiempo = 0) :
    tiempoCalculado tiempo (some inicio) (some fin)
      = if (if fin ≤ inicio then fin + MS_DIA else fin) > inicio then
          mathRound ((if fin ≤ inicio then fin + MS_DIA else fin) - inicio) MS_MINUTO
        else 1 := by
  unfold tiempoCalculado
  simp only [hcero, if_true]

theorem tiempoCalculado_invalidas (tiempo horaInicio horaFin : Option Int)
    (hcero : oCero tiempo = 0) (hinvalida : horaInicio = none ∨ horaFin = none) :
    tiempoCalculado tiempo horaInicio horaFin = 1 := by
  unfold tiempoCalculado
  simp only [hcero, if_true]
  rcases hinvalida with h | h
  · rw [h]
  · rw [h]
    cases horaInicio <;> rfl

/-- C18 as stated fails. A supplied `tiempo` of `-5` for an activity of one
hour is stored as `-5`, where the rule gives the computed 60 minutes; and an
activity without `tiempo` that ends 20 seconds after its start is stored with
`0`, where the rule coerces the non-positive computed value to `1`. -/
theorem C18_duration_computation_counterexample :
    tiempoCalculado (some (-5)) (some (MS_MINUTO * 480)) (some (MS_MINUTO * 540)) = -5
      ∧ duracionSegunSpec (some (-5)) (some (MS_MINUTO * 480)) (some (MS_MINUTO * 540)) = 60
      ∧ tiempoCalculado none (some (MS_MINUTO * 480)) (some (MS_MINUTO * 480 + 20000)) = 0
      ∧ duracionSegunSpec none (some (MS_MINUTO * 480)) (some (MS_MINUTO * 480 + 20000)) = 1 := by
  decide

/-- C18 amended: a supplied `tiempo` that is not zero is stored as supplied,
also when it is negative. When `tiempo` is absent or zero and both times are
valid, with `end' = end + 24h` if `end <= start` and `end' = end` otherwise:
the stored duration is `round((end' - start)/60000)`, which is at least 1,
when `end'` is 30 seconds or more after `start`, and it is `1` when `end'`
is not after `start`. It is `1` when a time is invalid. In all these cases
with a `tiempo` that is not negative the stored duration is the one of the
rule of the spec. -/
theorem C18_duration_computation_amended (tiempo horaInicio horaFin : Option Int) :
    (∀ t, tiempo = some t → t ≠ 0 → tiempoCalculado tiempo horaInicio horaFin = t)
      ∧ (oCero tiempo = 0 → ∀ inicio fin, horaInicio = some inicio → horaFin = some fin →
          (30000 ≤ (if fin ≤ inicio then fin + MS_DIA else fin) - inicio →
            tiempoCalculado tiempo horaInicio horaFin
                = mathRound ((if fin ≤ inicio then fin + MS_DIA else fin) - inicio) MS_MINUTO
              ∧ 1 ≤ tiempoCalculado tiempo horaInicio horaFin)
          ∧ ((if fin ≤ inicio then fin + MS_DIA else fin) ≤ inicio →
            tiempoCalculado tiempo horaInicio horaFin = 1))
      ∧ (oCero tiempo = 0 → horaInicio = none ∨ horaFin = none →
          tiempoCalculado tiempo horaInicio horaFin = 1)
      ∧ (0 ≤ oCero tiempo →
          (∀ inicio fin, horaInicio = some inicio → horaFin = some fin →
            30000 ≤ (if fin ≤ inicio then fin + MS_DIA else fin) - inicio
              ∨ (if fin ≤ inicio then fin + MS_DIA else fin) ≤ inicio) →
          tiempoCalculado tiempo horaInicio horaFin
            = duracionSegunSpec tiempo horaInicio horaFin) := by
  refine ⟨fun t ht hne => tiempoCalculado_suministrado _ _ _ t ht hne, ?_,
    fun hcero hinv => tiempoCalculado_invalidas _ _ _ hcero hinv, ?_⟩
  · intro hcero inicio fin hi hf
    rw [hi, hf, tiempoCalculado_fechas _ _ _ hcero]
    constructor
    · intro hlargo
      rw [if_pos (by omega)]
      exact ⟨rfl, mathRound_minutos_pos _ hlargo⟩
    · intro hno
      rw [if_neg (by omega)]
  · intro hnoneg hfuera
    by_cases hcero : oCero tiempo = 0
    · unfold duracionSegunSpec
      rw [if_neg (by omega)]
      match horaInicio, horaFin, hfuera with
      | some inicio, some fin, hfuera =>
        rw [tiempoCalculado_fechas _ _ _ hcero]
        have hcaso := hfuera inicio fin rfl rfl
        simp only
        generalize (if fin ≤ inicio then fin + MS_DIA else fin) = fin2 at hcaso ⊢
        rcases hcaso with hlargo | hno
        · have hpos := mathRound_minutos_pos _ hlargo
          rw [if_pos (by omega), if_pos (by omega)]
        · have hround : mathRound (fin2 - inicio) MS_MINUTO ≤ 0 := by
            unfold mathRound MS_MINUTO
            rw [Int.fdiv_eq_ediv _ (by norm_num)]
            omega
          rw [if_neg (by omega), if_neg (by omega)]
      | none, _, _ => rw [tiempoCalculado_invalidas _ _ _ hcero (Or.inl rfl)]
      | some _, none, _ => rw [tiempoCalculado_invalidas _ _ _ hcero (Or.inr rfl)]
    · unfold duracionSegunSpec tiempoCalculado
      simp only [hcero, if_false]
      rw [if_pos (by omega)]

/-- C18 amended at an activity from 08:00 to 09:30 without `tiempo`: the
stored duration is 90 minutes. -/
theorem C18_duration_computation_amended_witness :
    tiempoCalculado none (some (MS_MINUTO * 480)) (some (MS_MINUTO * 570)) = 90 :=
  (((C18_duration_computation_amended none (some (MS_MINUTO * 480))
      (some (MS_MINUTO * 570))).2.1 rfl (MS_MINUTO * 480) (MS_MINUTO * 570) rfl rfl).1
    (by decide)).1.trans (by decide)

/-- C19 as stated fails: an activity whose start and end are the same valid
time, without `tiempo`, is stored with 1440 minutes, not 1. -/
theorem C19_duration_coercion_counterexample :
    tiempoCalculado none (some (MS_MINUTO * 480)) (some (MS_MINUTO * 480)) = 1440
      ∧ tiempoCalculado none (some (MS_MINUTO * 480)) (some (MS_MINUTO * 480)) ≠ 1 := by
  decide

/-- C19 amended: for an activity without `tiempo`, or with `tiempo` zero,
whose start and end are the same valid time, the end is rolled over by 24h
and the stored duration is 1440 minutes. -/
theorem C19_duration_coercion_amended (tiempo : Option Int) (hora : Int)
    (hcero : oCero tiempo = 0) :
    tiempoCalculado tiempo (some hora) (some hora) = 1440 := by
  rw [tiempoCalculado_fechas _ _ _ hcero]
  have hle : hora ≤ hora := le_refl _
  simp only [hle, if_true]
  have hgt : hora + MS_DIA > hora := by
    unfold MS_DIA
    omega
  rw [if_pos hgt]
  have hdif : hora + MS_DIA - hora = MS_MINUTO * 1440 := by
    unfold MS_DIA MS_MINUTO
    omega
  rw [hdif, mathRound_minutos_exactos]

/-- C19 amended at an activity that starts and ends at 08:00, without
`tiempo`. -/
theorem C19_duration_coercion_amended_witness :
    tiempoCalculado none (some (MS_MINUTO * 480)) (some (MS_MINUTO * 480)) = 1440 :=
  C19_duration_coercion_amended none (MS_MINUTO * 480) rfl

/-- C20 fails on the code. In `guardarJornadaCompleta` an activity without
`tiempo` that ends 20 seconds after its start is stored with `tiempo` 0, and
a supplied `tiempo` of `-5` is stored as `-5`; in `agregarActividadAJornada`
an activity without `tiempo` is stored with `tiempo` 0, and a supplied
`tiempo` is stored as supplied, whatever its sign. -/
theorem C20_duration_below_one :
    tiempoCalculado none (some (MS_MINUTO * 480)) (some (MS_MINUTO * 480 + 20000)) = 0
      ∧ tiempoCalculado (some (-5)) (some (MS_MINUTO * 480)) (some (MS_MINUTO * 540)) = -5
      ∧ tiempoActividadAgregada none = 0
      ∧ (∀ t : Int, tiempoActividadAgregada (some t) = t) := by
  refine ⟨by decide, by decide, rfl, fun _ => rfl⟩

/-! ## Date normalization -/

/-- C23: normalization is idempotent, for `normalizarFecha` and for the
inline `setUTCHours(0, 0, 0, 0)`: normalizing twice is normalizing once. The
normalized date is at 00:00:00.000 UTC, on the calendar day of the date it
comes from, and the two operations give the same date. -/
theorem C23_normalize_idempotent (d : Int) :
    normalizarFecha (normalizarFecha d) = normalizarFecha d
      ∧ setUTCHoursCero (setUTCHoursCero d) = setUTCHoursCero d
      ∧ normalizarFecha d % MS_DIA = 0
      ∧ toDateString (normalizarFecha d) = toDateString d
      ∧ normalizarFecha d ≤ d ∧ d < normalizarFecha d + MS_DIA
      ∧ setUTCHoursCero d = normalizarFecha d := by
  refine ⟨normalizarFecha_idem d, ?_, ?_, ?_, ?_, ?_, rfl⟩
  · exact normalizarFecha_idem d
  · unfold normalizarFecha MS_DIA
    omega
  · unfold toDateString normalizarFecha MS_DIA
    omega
  · unfold normalizarFecha MS_DIA
    omega
  · unfold normalizarFecha MS_DIA
    omega

/-! ## `recalcularTiemposEfectivos` -/

theorem foldl_recalcularUna (jornadas : List JornadaRecalculada) (e : Estadisticas) :
    (jornadas.foldl recalcularUna e).totalJornadas = e.totalJornadas
      ∧ (jornadas.foldl recalcularUna e).jornadasActualizadas
          = e.jornadasActualizadas + jornadas.countP (fun j => j.guardada)
      ∧ (jornadas.foldl recalcularUna e).errores
          = e.errores + jornadas.countP (fun j => !j.guardada) := by
  induction jornadas generalizing e with
  | nil => simp
  | cons j resto ih =>
    rw [List.foldl_cons]
    obtain ⟨h1, h2, h3⟩ := ih (recalcularUna e j)
    rw [h1, h2, h3]
    unfold recalcularUna
    cases hg : j.guardada
    · simp [hg, List.countP_cons]
      omega
    · cases hs : j.solapamientos
      · simp [hg, hs, List.countP_cons]
        omega
      · simp [hg, hs, List.countP_cons]
        omega

/-- C24: for a non-empty list of jornadas, each with a save that succeeds or
fails, the loop goes over the whole list whatever fails, and the statistics
returned with status 200 satisfy `jornadasActualizadas + errores =
totalJornadas`, `totalJornadas` being the length of the list, `errores` the
number of failing saves and `jornadasActualizadas` that of successful ones,
wherever they are in the list. -/
theorem C24_recalculation_counts (jornadas : List JornadaRecalculada) (hne : jornadas ≠ []) :
    (recalcularTiemposEfectivos jornadas).1 = 200
      ∧ (recalcularTiemposEfectivos jornadas).2.totalJornadas = jornadas.length
      ∧ (recalcularTiemposEfectivos jornadas).2.errores
          = jornadas.countP (fun j => !j.guardada)
      ∧ (recalcularTiemposEfectivos jornadas).2.jornadasActualizadas
          = jornadas.countP (fun j => j.guardada)
      ∧ (recalcularTiemposEfectivos jornadas).2.jornadasActualizadas
          + (recalcularTiemposEfectivos jornadas).2.errores
          = (recalcularTiemposEfectivos jornadas).2.totalJornadas := by
  have hlen : ¬ jornadas.length = 0 := fun h => hne (List.length_eq_zero.mp h)
  unfold recalcularTiemposEfectivos
  rw [if_neg hlen]
  obtain ⟨h1, h2, h3⟩ := foldl_recalcularUna jornadas
    { totalJornadas := jornadas.length, jornadasActualizadas := 0, errores := 0,
      jornadasConSolapamientos := 0, tiempoTotalRecuperado := 0 }
  simp only [h1, h2, h3, Nat.zero_add, true_and]
  have hcuenta := List.length_eq_countP_add_countP (fun j : JornadaRecalculada => j.guardada)
    jornadas
  have hneg : (jornadas.countP fun j => decide ¬ (j.guardada = true))
      = jornadas.countP fun j => !j.guardada := by
    congr 1
    funext j
    cases j.guardada <;> rfl
  rw [hneg] at hcuenta
  exact hcuenta.symm

/-- C24 at three jornadas whose second save fails: 2 updated, 1 error, 3 in
total. -/
theorem C24_recalculation_counts_witness :
    (recalcularTiemposEfectivos
        [ { guardada := true, solapamientos := false, tiempoSumado := none,
            tiempoEfectivo := none },
          { guardada := false, solapamientos := false, tiempoSumado := none,
            tiempoEfectivo := none },
          { guardada := true, solapamientos := true, tiempoSumado := some 10,
            tiempoEfectivo := some 7 } ]).2.jornadasActualizadas
      + (recalcularTiemposEfectivos
        [ { guardada := true, solapamientos := false, tiempoSumado := none,
            tiempoEfectivo := none },
          { guardada := false, solapamientos := false, tiempoSumado := none,
            tiempoEfectivo := none },
          { guardada := true, solapamientos := true, tiempoSumado := some 10,
            tiempoEfectivo := some 7 } ]).2.errores
      = (recalcularTiemposEfectivos
        [ { guardada := true, solapamientos := false, tiempoSumado := none,
            tiempoEfectivo := none },
          { guardada := false, solapamientos := false, tiempoSumado := none,
            tiempoEfectivo := none },
          { guardada := true, solapamientos := true, tiempoSumado := some 10,
            tiempoEfectivo := some 7 } ]).2.totalJornadas :=
  (C24_recalculation_counts _ (by decide)).2.2.2.2

/-! ## Well-formed results and the optimized calculator -/

theorem bienFormado_max (m : Int) :
    bienFormado { horas := max 0 m / 60, minutos := max 0 m % 60 } (max 0 m) := by
  unfold bienFormado
  have hx : 0 ≤ max 0 m := le_max_left _ _
  generalize max 0 m = x at hx
  simp only
  omega

theorem bienFormado_metodo1 (j : Jornada) (inicio fin : Int)
    (hi : j.horaInicio = some inicio) (hf : j.horaFin = some fin) :
    bienFormado (tiempoEfectivoAPagar j)
      (max 0 (tiempoTotalJornadaMinutos inicio fin - minutosPermisosNoRemunerados j.registros)) := by
  rw [tiempoEfectivoAPagar_metodo1 j inicio fin hi hf, si_positivo_eq_max]
  exact bienFormado_max _

theorem bienFormado_metodo2 (j : Jornada) (hfalta : j.horaInicio = none ∨ j.horaFin = none)
    (hne : j.registros ≠ []) :
    bienFormado (tiempoEfectivoAPagar j)
      (max 0 (sumarTiempos j.registros - minutosPermisosNoRemunerados j.registros)) := by
  rw [tiempoEfectivoAPagar_sin_horas j hfalta, if_pos (List.length_pos.mpr hne),
    si_positivo_eq_max]
  exact bienFormado_max _

theorem bienFormado_mathMax (m : Int) :
    bienFormado (aHorasMinutos (mathMax 0 m)) (max 0 m) := by
  rw [mathMax_cero_eq, aHorasMinutos_of_nonneg _ (le_max_left _ _)]
  exact bienFormado_max m

theorem calcular_con_horas_forma (registros : List Registro) (h : Int × Int)
    (hs : List (Int × Int)) (hHL : (registros.filter esHorarioLaboral).length > 0)
    (hhoras : horasDe (registros.filter esHorarioLaboral) = h :: hs) :
    ∃ m, (calcularJornadaOptimizada registros).tiempoEfectivoAPagar
      = aHorasMinutos (mathMax 0 m) := by
  rw [calcular_con_horas registros h hs hHL hhoras]
  exact ⟨_, rfl⟩

theorem bienFormado_horario (registros : List Registro) (h : Int × Int)
    (hs : List (Int × Int)) (hHL : (registros.filter esHorarioLaboral).length > 0)
    (hhoras : horasDe (registros.filter esHorarioLaboral) = h :: hs) :
    ∃ x, 0 ≤ x ∧ bienFormado (calcularJornadaOptimizada registros).tiempoEfectivoAPagar x := by
  obtain ⟨m, hm⟩ := calcular_con_horas_forma registros h hs hHL hhoras
  rw [hm]
  exact ⟨max 0 m, le_max_left _ _, bienFormado_mathMax m⟩

theorem bienFormado_solo_permisos (registros : List Registro)
    (hHL : ¬ (registros.filter esHorarioLaboral).length > 0)
    (hPL : (registros.filter esPermisoLaboral).length > 0)
    (hnoneg : 0 ≤ tiempoPermisosRemunerados (registros.filter esPermisoLaboral)) :
    bienFormado (calcularJornadaOptimizada registros).tiempoEfectivoAPagar
      (tiempoPermisosRemunerados (registros.filter esPermisoLaboral)) := by
  rw [calcular_solo_permisos registros hHL hPL]
  simp only
  rw [aHorasMinutos_of_nonneg _ hnoneg]
  have h := bienFormado_max (tiempoPermisosRemunerados (registros.filter esPermisoLaboral))
  rw [max_eq_right hnoneg] at h
  exact h

/-- C25 fails on the code in the permit-only branch of the
category-restricted mode. A paid permit stored with a `tiempo` of 1 minute
whose `horaFin` is 25 hours and a half before its `horaInicio` is recomputed
as -90 minutes, and the effective time is `{-2, -30}`: the stored durations
are not negative and the hours and the minutes are. -/
theorem C25_permit_only_negative :
    (∀ r ∈ registrosPermisoInvertido, 0 ≤ oCero r.tiempo)
      ∧ tiempoPermisosRemunerados (registrosPermisoInvertido.filter esPermisoLaboral) = -90
      ∧ (calcularJornadaOptimizada registrosPermisoInvertido).tiempoEfectivoAPagar
          = { horas := -2, minutos := -30 }
      ∧ (calcularJornadaOptimizada registrosPermisoInvertido).tiempoEfectivoAPagar.horas < 0
      ∧ (calcularJornadaOptimizada registrosPermisoInvertido).tiempoEfectivoAPagar.minutos < 0 := by
  decide

theorem optimizado_eq_metodo1 (j : Jornada) (inicio fin : Int)
    (hi : j.horaInicio = some inicio) (hf : j.horaFin = some fin)
    (hsin : j.registros.filter esPermisoNoRemunerado = [])
    (hnoneg : 0 ≤ tiempoTotalJornadaMinutos inicio fin) :
    calcularTiempoEfectivoOptimizado j = tiempoEfectivoAPagar j := by
  rw [tiempoEfectivoAPagar_metodo1 j inicio fin hi hf, si_positivo_eq_max]
  have hcero : minutosPermisosNoRemunerados j.registros = 0 := by
    unfold minutosPermisosNoRemunerados
    rw [hsin]
    rfl
  rw [hcero, sub_zero, max_eq_right hnoneg]
  unfold calcularTiempoEfectivoOptimizado
  rw [hi, hf]
  exact aHorasMinutos_of_nonneg _ hnoneg

/-- C26 fails on the code. For the shift without activities whose `horaFin`
is 25 hours and a half before its `horaInicio`, the rounded elapsed time is
-90 minutes: `calcularTiempoEfectivoOptimizado` returns `{-2, -30}` and
`obtenerJornadas` computes `{0, 0}`. -/
theorem C26_optimized_differs :
    jornadaInvertida.horaInicio = some (MS_MINUTO * 3000)
      ∧ jornadaInvertida.horaFin = some (MS_MINUTO * 1470)
      ∧ jornadaInvertida.registros.filter esPermisoNoRemunerado = []
      ∧ tiempoTotalJornadaMinutos (MS_MINUTO * 3000) (MS_MINUTO * 1470) = -90
      ∧ calcularTiempoEfectivoOptimizado jornadaInvertida = { horas := -2, minutos := -30 }
      ∧ tiempoEfectivoAPagar jornadaInvertida = { horas := 0, minutos := 0 }
      ∧ calcularTiempoEfectivoOptimizado jornadaInvertida
          ≠ tiempoEfectivoAPagar jornadaInvertida := by
  decide

/-! ## Paid activities -/

theorem sum_filter_add_sum_filter_not (registros : List Registro) (p : Registro → Bool) :
    ((registros.filter p).map fun r => oCero r.tiempo).sum
        + ((registros.filter fun r => !p r).map fun r => oCero r.tiempo).sum
      = (registros.map fun r => oCero r.tiempo).sum := by
  induction registros with
  | nil => rfl
  | cons r resto ih =>
    cases hp : p r
    · simp only [List.filter_cons, hp, Bool.not_false, if_true, List.map_cons, List.sum_cons,
        Bool.false_eq_true, if_false]
      omega
    · simp only [List.filter_cons, hp, Bool.not_true, if_true, List.map_cons, List.sum_cons,
        Bool.false_eq_true, if_false]
      omega

theorem sum_nonneg_of_tiempos (registros : List Registro)
    (hnoneg : ∀ r ∈ registros, 0 ≤ oCero r.tiempo) :
    0 ≤ (registros.map fun r => oCero r.tiempo).sum := by
  induction registros with
  | nil => simp
  | cons r resto ih =>
    rw [List.map_cons, List.sum_cons]
    have h1 := hnoneg r (List.mem_cons_self _ _)
    have h2 := ih (fun x hx => hnoneg x (List.mem_cons_of_mem _ hx))
    omega

/-- C27: in the activity-sum strategy, for activities with non-negative
durations, `max(0, total - unpaid)` is the sum of the durations of the
activities that are not unpaid permits; the effective time of a shift that
lacks a boundary time and has activities is that sum as
`{floor(x/60), x mod 60}`, so it is the same for two such shifts whose
activities other than unpaid permits have the same durations. -/
theorem C27_paid_sum (j : Jornada) (hfalta : j.horaInicio = none ∨ j.horaFin = none)
    (hne : j.registros ≠ []) (hnoneg : ∀ r ∈ j.registros, 0 ≤ oCero r.tiempo) :
    max 0 (sumarTiempos j.registros - minutosPermisosNoRemunerados j.registros)
        = ((j.registros.filter fun r => !esPermisoNoRemunerado r).map
            fun r => oCero r.tiempo).sum
      ∧ tiempoEfectivoAPagar j
        = { horas := ((j.registros.filter fun r => !esPermisoNoRemunerado r).map
              fun r => oCero r.tiempo).sum / 60,
            minutos := ((j.registros.filter fun r => !esPermisoNoRemunerado r).map
              fun r => oCero r.tiempo).sum % 60 }
      ∧ (∀ otra : Jornada, (otra.horaInicio = none ∨ otra.horaFin = none) →
          otra.registros ≠ [] → (∀ r ∈ otra.registros, 0 ≤ oCero r.tiempo) →
          ((otra.registros.filter fun r => !esPermisoNoRemunerado r).map fun r => r.tiempo)
            = ((j.registros.filter fun r => !esPermisoNoRemunerado r).map fun r => r.tiempo) →
          tiempoEfectivoAPagar otra = tiempoEfectivoAPagar j) := by
  have hpagado : ∀ k : Jornada, (k.horaInicio = none ∨ k.horaFin = none) → k.registros ≠ [] →
      (∀ r ∈ k.registros, 0 ≤ oCero r.tiempo) →
      max 0 (sumarTiempos k.registros - minutosPermisosNoRemunerados k.registros)
          = ((k.registros.filter fun r => !esPermisoNoRemunerado r).map
              fun r => oCero r.tiempo).sum
        ∧ tiempoEfectivoAPagar k
          = { horas := ((k.registros.filter fun r => !esPermisoNoRemunerado r).map
                fun r => oCero r.tiempo).sum / 60,
              minutos := ((k.registros.filter fun r => !esPermisoNoRemunerado r).map
                fun r => oCero r.tiempo).sum % 60 } := by
    intro k hk1 hk2 hk3
    have hsplit := sum_filter_add_sum_filter_not k.registros esPermisoNoRemunerado
    have hpos : 0 ≤ ((k.registros.filter fun r => !esPermisoNoRemunerado r).map
        fun r => oCero r.tiempo).sum :=
      sum_nonneg_of_tiempos _ (fun r hr => hk3 r (List.mem_filter.mp hr).1)
    have hmax : max 0 (sumarTiempos k.registros - minutosPermisosNoRemunerados k.registros)
        = ((k.registros.filter fun r => !esPermisoNoRemunerado r).map
            fun r => oCero r.tiempo).sum := by
      unfold minutosPermisosNoRemunerados
      rw [sumarTiempos_eq_sum, sumarTiempos_eq_sum, ← hsplit, add_sub_cancel_left]
      exact max_eq_right hpos
    refine ⟨hmax, ?_⟩
    rw [tiempoEfectivoAPagar_sin_horas k hk1, if_pos (List.length_pos.mpr hk2),
      si_positivo_eq_max, hmax]
  obtain ⟨h1, h2⟩ := hpagado j hfalta hne hnoneg
  refine ⟨h1, h2, ?_⟩
  intro otra ho1 ho2 ho3 higual
  rw [(hpagado otra ho1 ho2 ho3).2, h2]
  have hsum : ((otra.registros.filter fun r => !esPermisoNoRemunerado r).map
        fun r => oCero r.tiempo)
      = ((j.registros.filter fun r => !esPermisoNoRemunerado r).map fun r => oCero r.tiempo) := by
    have := congrArg (List.map oCero) higual
    simpa [List.map_map, Function.comp_def] using this
  rw [hsum]

/-- C27 at a shift without boundary times, with an activity of 100 minutes
and an unpaid permit of 30 minutes: 1 hour 40 minutes. -/
theorem C27_paid_sum_witness :
    tiempoEfectivoAPagar
        { horaInicio := none, horaFin := none,
          registros :=
            [ { tipoTiempo := "Operación", tipoPermiso := none,
                horaInicio := none, horaFin := none, tiempo := some 100 },
              permisoNoRemunerado 30 ],
          totalTiempoActividades := none }
      = { horas := 1, minutos := 40 } :=
  (C27_paid_sum
    { horaInicio := none, horaFin := none,
      registros :=
        [ { tipoTiempo := "Operación", tipoPermiso := none,
            horaInicio := none, horaFin := none, tiempo := some 100 },
          permisoNoRemunerado 30 ],
      totalTiempoActividades := none }
    (Or.inl rfl) (by decide) (by decide)).2.1.trans (by decide)

/-! ## `guardarJornadaCompleta` -/

theorem registrarActividades_spec (isValid : String → Bool)
    (buscarOCrearOti : String → Option String) (idDe : Nat → String) (jornada : JornadaDoc)
    (actividades : List ActividadEntrada) (producciones : List ProduccionDoc)
    (ids : List String) :
    ∃ nuevos,
      (registrarActividades isValid buscarOCrearOti idDe jornada actividades producciones ids).1
          = producciones ++ nuevos
        ∧ nuevos.length ≤ actividades.length
        ∧ ∀ finales,
            (registrarActividades isValid buscarOCrearOti idDe jornada actividades producciones
              ids).2 = Except.ok finales →
            finales = ids ++ nuevos.map (fun r => r._id) ∧ nuevos.length = actividades.length := by
  induction actividades generalizing producciones ids with
  | nil =>
    refine ⟨[], by simp [registrarActividades], by simp, ?_⟩
    intro finales h
    simp only [registrarActividades, Except.ok.injEq] at h
    simp [h]
  | cons a resto ih =>
    unfold registrarActividades
    cases hc : construirRegistro isValid buscarOCrearOti jornada (idDe ids.length) a with
    | error e =>
      refine ⟨[], by simp, by simp, ?_⟩
      intro finales h
      simp at h
    | ok nuevoRegistro =>
      obtain ⟨nuevos, h1, h2, h3⟩ := ih (producciones ++ [nuevoRegistro])
        (ids ++ [nuevoRegistro._id])
      refine ⟨nuevoRegistro :: nuevos, ?_, ?_, ?_⟩
      · simp only [h1, List.append_assoc, List.singleton_append]
      · simp only [List.length_cons]
        omega
      · intro finales h
        obtain ⟨h4, h5⟩ := h3 finales h
        refine ⟨?_, by simp [h5]⟩
        simp only [h4, List.append_assoc, List.singleton_append, List.map_cons]

theorem registrarActividades_invalida (isValid : String → Bool)
    (buscarOCrearOti : String → Option String) (idDe : Nat → String) (jornada : JornadaDoc)
    (previas : List ActividadEntrada) (mala : ActividadEntrada) (resto : List ActividadEntrada)
    (e : ErrorActividad) (producciones : List ProduccionDoc) (ids : List String)
    (hprevias : ∀ a ∈ previas, ∀ _id,
      ∃ r, construirRegistro isValid buscarOCrearOti jornada _id a = Except.ok r)
    (hmala : ∀ _id, construirRegistro isValid buscarOCrearOti jornada _id mala = Except.error e) :
    ∃ nuevos,
      registrarActividades isValid buscarOCrearOti idDe jornada (previas ++ mala :: resto)
          producciones ids = (producciones ++ nuevos, Except.error e)
        ∧ nuevos.length = previas.length := by
  induction previas generalizing producciones ids with
  | nil =>
    refine ⟨[], ?_, rfl⟩
    simp only [List.nil_append, registrarActividades, hmala, List.append_nil]
  | cons a previas ih =>
    obtain ⟨r, hr⟩ := hprevias a (List.mem_cons_self _ _) (idDe ids.length)
    obtain ⟨nuevos, h1, h2⟩ := ih (producciones ++ [r]) (ids ++ [r._id])
      (fun b hb => hprevias b (List.mem_cons_of_mem _ hb))
    refine ⟨r :: nuevos, ?_, by simp [h2]⟩
    rw [List.cons_append, registrarActividades, hr]
    simp only
    rw [h1, List.append_assoc, List.singleton_append]

/-- C21 as stated fails: in a batch of two valid activities, one with an
invalid machine identifier and one more valid activity, the response names
the invalid machine identifier, and the documents of the first two
activities have been saved: the `Produccion` collection, empty before the
call, holds `r0` and `r1` after it. -/
theorem C21_batch_ingestion_counterexample :
    (guardarActividades isValidEjemplo (fun _ => none) idDeEjemplo jornadaConRegistros
        [actividadValida, actividadValida, actividadMaquinaInvalida, actividadValida] []).2
        = Except.error (ErrorActividad.maquinaInvalida "xyz")
      ∧ (guardarActividades isValidEjemplo (fun _ => none) idDeEjemplo jornadaConRegistros
          [actividadValida, actividadValida, actividadMaquinaInvalida, actividadValida] []).1.map
            (fun r => r._id) = ["r0", "r1"]
      ∧ (guardarActividades isValidEjemplo (fun _ => none) idDeEjemplo jornadaConRegistros
          [actividadValida, actividadValida, actividadMaquinaInvalida, actividadValida] []).1
        ≠ [] := by
  decide

/-- C21 amended: for a batch in which the activities before the first one
that fails a check pass all of them, the response is the one of the check
that fails, the jornada is not saved, and the `Produccion` collection is the
one before the call followed by one new document for each activity before
the failing one; no document is made for the failing activity or for those
after it, so nothing is persisted exactly when the first activity fails. -/
theorem C21_batch_ingestion_amended (isValid : String → Bool)
    (buscarOCrearOti : String → Option String) (idDe : Nat → String) (jornada : JornadaDoc)
    (previas : List ActividadEntrada) (mala : ActividadEntrada) (resto : List ActividadEntrada)
    (e : ErrorActividad) (producciones : List ProduccionDoc)
    (hprevias : ∀ a ∈ previas, ∀ _id,
      ∃ r, construirRegistro isValid buscarOCrearOti jornada _id a = Except.ok r)
    (hmala : ∀ _id, construirRegistro isValid buscarOCrearOti jornada _id mala = Except.error e) :
    ∃ nuevos,
      guardarActividades isValid buscarOCrearOti idDe jornada (previas ++ mala :: resto)
          producciones = (producciones ++ nuevos, Except.error e)
        ∧ nuevos.length = previas.length
        ∧ (previas = [] → nuevos = []) := by
  obtain ⟨nuevos, h1, h2⟩ := registrarActividades_invalida isValid buscarOCrearOti idDe jornada
    previas mala resto e producciones [] hprevias hmala
  refine ⟨nuevos, ?_, h2, ?_⟩
  · unfold guardarActividades
    rw [h1]
  · intro hvacia
    rw [hvacia] at h2
    exact List.length_eq_zero.mp h2

/-- C21 amended at the batch of two valid activities, one with an invalid
machine identifier and one more valid activity: two documents are added and
the response names the machine identifier. -/
theorem C21_batch_ingestion_amended_witness :
    ∃ nuevos,
      guardarActividades isValidEjemplo (fun _ => none) idDeEjemplo jornadaConRegistros
          ([actividadValida, actividadValida] ++ actividadMaquinaInvalida :: [actividadValida])
          [] = ([] ++ nuevos, Except.error (ErrorActividad.maquinaInvalida "xyz"))
        ∧ nuevos.length = [actividadValida, actividadValida].length
        ∧ ([actividadValida, actividadValida] = [] → nuevos = []) :=
  C21_batch_ingestion_amended isValidEjemplo (fun _ => none) idDeEjemplo jornadaConRegistros
    [actividadValida, actividadValida] actividadMaquinaInvalida [actividadValida]
    (ErrorActividad.maquinaInvalida "xyz") []
    (fun a ha _id => by
      have ha2 : a = actividadValida := by
        rcases List.mem_cons.mp ha with h | h
        · exact h
        · exact List.mem_singleton.mp h
      rw [ha2]
      exact ⟨_, rfl⟩)
    (fun _id => rfl)

theorem foldl_set_prefijo (xs acc : List String) :
    ∃ sufijo, xs.foldl (fun set x => if x ∈ set then set else set ++ [x]) acc = acc ++ sufijo
      ∧ ∀ x ∈ sufijo, x ∈ xs ∧ x ∉ acc := by
  induction xs generalizing acc with
  | nil => exact ⟨[], by simp, fun x hx => absurd hx (List.not_mem_nil _)⟩
  | cons y ys ih =>
    rw [List.foldl_cons]
    by_cases hy : y ∈ acc
    · rw [if_pos hy]
      obtain ⟨sufijo, h1, h2⟩ := ih acc
      exact ⟨sufijo, h1, fun x hx => ⟨List.mem_cons_of_mem _ (h2 x hx).1, (h2 x hx).2⟩⟩
    · rw [if_neg hy]
      obtain ⟨sufijo, h1, h2⟩ := ih (acc ++ [y])
      refine ⟨y :: sufijo, by simp [h1], ?_⟩
      intro x hx
      rcases List.mem_cons.mp hx with h | h
      · rw [h]
        exact ⟨List.mem_cons_self _ _, hy⟩
      · obtain ⟨h3, h4⟩ := h2 x h
        exact ⟨List.mem_cons_of_mem _ h3, fun hacc => h4 (List.mem_append_left _ hacc)⟩

theorem foldl_set_of_nodup (xs acc : List String) (hnodup : (acc ++ xs).Nodup) :
    xs.foldl (fun set x => if x ∈ set then set else set ++ [x]) acc = acc ++ xs := by
  induction xs generalizing acc with
  | nil => simp
  | cons y ys ih =>
    rw [List.foldl_cons]
    have hy : y ∉ acc := by
      intro hmem
      rw [List.nodup_append] at hnodup
      exact hnodup.2.2 hmem (List.mem_cons_self _ _)
    rw [if_neg hy, ih (acc ++ [y]) (by simpa [List.append_assoc] using hnodup)]
    simp

theorem arrayFromSet_of_nodup (xs : List String) (hnodup : xs.Nodup) : arrayFromSet xs = xs := by
  unfold arrayFromSet
  rw [foldl_set_of_nodup xs [] (by simpa using hnodup)]
  simp

theorem arrayFromSet_append (xs ys : List String) :
    ∃ sufijo, arrayFromSet (xs ++ ys) = arrayFromSet xs ++ sufijo
      ∧ ∀ x ∈ sufijo, x ∈ ys ∧ x ∉ xs := by
  unfold arrayFromSet
  rw [List.foldl_append]
  obtain ⟨sufijo, h1, h2⟩ := foldl_set_prefijo ys
    (xs.foldl (fun set x => if x ∈ set then set else set ++ [x]) [])
  refine ⟨sufijo, h1, fun x hx => ⟨(h2 x hx).1, fun hxs => (h2 x hx).2 ?_⟩⟩
  exact (mem_arrayFromSet xs x).mpr hxs

/-- C22: after a successful `guardarJornadaCompleta` the `registros` of the
saved jornada have no duplicate identifier; they hold the identifiers
referenced before the call and those of the documents made by the call, and
nothing else; and they are the identifiers referenced before, in their
order of first occurrence, followed by new ones that were not referenced
before. A list of previous references without duplicates is kept as it
is. -/
theorem C22_reference_append (isValid : String → Bool)
    (buscarOCrearOti : String → Option String) (idDe : Nat → String) (jornada : JornadaDoc)
    (actividades : List ActividadEntrada) (producciones guardadas : List ProduccionDoc)
    (jornadaGuardada : JornadaDoc)
    (hexito : guardarActividades isValid buscarOCrearOti idDe jornada actividades producciones
      = (guardadas, Except.ok jornadaGuardada)) :
    ∃ nuevos,
      guardadas = producciones ++ nuevos
        ∧ nuevos.length = actividades.length
        ∧ (jornadaGuardada.registros.map RegistroRef.comoString).Nodup
        ∧ (∀ x, x ∈ jornadaGuardada.registros.map RegistroRef.comoString
            ↔ x ∈ jornada.registros.map RegistroRef.comoString
              ∨ x ∈ nuevos.map fun r => r._id)
        ∧ (∃ sufijo,
            jornadaGuardada.registros.map RegistroRef.comoString
                = arrayFromSet (jornada.registros.map RegistroRef.comoString) ++ sufijo
              ∧ ∀ x ∈ sufijo, x ∈ nuevos.map (fun r => r._id)
                  ∧ x ∉ jornada.registros.map RegistroRef.comoString)
        ∧ ((jornada.registros.map RegistroRef.comoString).Nodup →
            arrayFromSet (jornada.registros.map RegistroRef.comoString)
              = jornada.registros.map RegistroRef.comoString) := by
  obtain ⟨nuevos, h1, _, h3⟩ := registrarActividades_spec isValid buscarOCrearOti idDe jornada
    actividades producciones []
  unfold guardarActividades at hexito
  cases hres : registrarActividades isValid buscarOCrearOti idDe jornada actividades
      producciones [] with
  | mk finalesP resultado =>
    rw [hres] at hexito h1 h3
    cases resultado with
    | error e =>
      simp only [Prod.mk.injEq] at hexito
      exact absurd hexito.2 (by simp)
    | ok ids =>
      simp only [Prod.mk.injEq, Except.ok.injEq] at hexito
      obtain ⟨hguardadas, hjornada⟩ := hexito
      obtain ⟨hids, hlen⟩ := h3 ids rfl
      simp only [List.nil_append] at hids
      simp only at h1
      have hregistros : jornadaGuardada.registros.map RegistroRef.comoString
          = arrayFromSet (jornada.registros.map RegistroRef.comoString
              ++ nuevos.map fun r => r._id) := by
        rw [← hjornada, ← hids]
        simp only [List.map_map]
        have : (RegistroRef.comoString ∘ RegistroRef.identificador) = fun x => x := by
          funext x
          rfl
        rw [this, List.map_id']
      refine ⟨nuevos, ?_, hlen, ?_, ?_, ?_, arrayFromSet_of_nodup _⟩
      · rw [← hguardadas, h1]
      · rw [hregistros]
        exact arrayFromSet_nodup _
      · intro x
        rw [hregistros, mem_arrayFromSet, List.mem_append]
      · rw [hregistros]
        exact arrayFromSet_append _ _

/-- C22 at the jornada that references `p1` and `p2` and a batch of two
valid activities: the saved jornada references `p1, p2, r0, r1`. -/
theorem C22_reference_append_witness :
    (∃ nuevos : List ProduccionDoc,
      nuevos.length = 2
        ∧ (∀ x, x ∈ ["p1", "p2", "r0", "r1"]
            ↔ x ∈ jornadaConRegistros.registros.map RegistroRef.comoString
              ∨ x ∈ nuevos.map fun r => r._id)) :=
  match C22_reference_append isValidEjemplo (fun _ => none) idDeEjemplo jornadaConRegistros
      [actividadValida, actividadValida] []
      (guardarActividades isValidEjemplo (fun _ => none) idDeEjemplo jornadaConRegistros
        [actividadValida, actividadValida] []).1
      { jornadaConRegistros with
        registros := ["p1", "p2", "r0", "r1"].map RegistroRef.identificador }
      (by decide) with
  | ⟨nuevos, _, hlen, _, hmem, _, _⟩ => ⟨nuevos, hlen, hmem⟩

/-! ## The consolidated jornada -/

theorem tiempoEfectivoAPagar_sin_horas_suma (j : Jornada)
    (hfalta : j.horaInicio = none ∨ j.horaFin = none)
    (htotal : j.totalTiempoActividades = some { horas := 0, minutos := 0 }) :
    tiempoEfectivoAPagar j
      = { horas := max 0 ((j.registros.map fun r => oCero r.tiempo).sum -
            ((j.registros.filter esPermisoNoRemunerado).map fun r => oCero r.tiempo).sum) / 60,
          minutos := max 0 ((j.registros.map fun r => oCero r.tiempo).sum -
            ((j.registros.filter esPermisoNoRemunerado).map fun r => oCero r.tiempo).sum) % 60 } := by
  rw [tiempoEfectivoAPagar_sin_horas j hfalta]
  by_cases hne : j.registros = []
  · rw [hne, htotal]
    rfl
  · rw [if_pos (List.length_pos.mpr hne), si_positivo_eq_max]
    unfold minutosPermisosNoRemunerados
    rw [sumarTiempos_eq_sum, sumarTiempos_eq_sum]

/-- C28: for a group of two or more jornadas of one day, the document that
`consolidarJornadasDuplicadas` creates has `operario` equal to `operarioId`,
the normalized `fecha` of the first member, the union as `registros` and
`totalTiempoActividades` equal to `{0, 0}`; it has no `horaInicio` and no
`horaFin`, whatever the members had, and so has the jornada returned for the
group. Read back with its `registros` populated, its effective payable time
in `obtenerJornadas` is the one of the activity-sum strategy,
`max(0, total - unpaid)` as `{floor(x/60), x mod 60}`. -/
theorem C28_consolidated_without_boundaries (operarioId : String) (idNuevo : Nat)
    (jornadasDelDia : List JornadaDoc) (hvarias : 1 < jornadasDelDia.length) :
    ∃ primera nueva devuelta,
      jornadasDelDia.head? = some primera
        ∧ (procesarGrupo operarioId idNuevo jornadasDelDia).operaciones
            = jornadasDelDia.map (fun j => Operacion.findByIdAndDelete j._id)
              ++ [Operacion.crear nueva]
        ∧ (procesarGrupo operarioId idNuevo jornadasDelDia).jornadas = [devuelta]
        ∧ nueva.operario = operarioId
        ∧ nueva.fecha = normalizarFecha primera.fecha
        ∧ nueva.registros = (registrosCombinados jornadasDelDia).map RegistroRef.identificador
        ∧ nueva.totalTiempoActividades = some { horas := 0, minutos := 0 }
        ∧ nueva.horaInicio = none ∧ nueva.horaFin = none
        ∧ devuelta.horaInicio = none ∧ devuelta.horaFin = none
        ∧ (∀ buscar : String → Option Registro,
            tiempoEfectivoAPagar (poblar buscar nueva)
              = { horas := max 0 (((poblar buscar nueva).registros.map
                      fun r => oCero r.tiempo).sum
                    - (((poblar buscar nueva).registros.filter esPermisoNoRemunerado).map
                      fun r => oCero r.tiempo).sum) / 60,
                  minutos := max 0 (((poblar buscar nueva).registros.map
                      fun r => oCero r.tiempo).sum
                    - (((poblar buscar nueva).registros.filter esPermisoNoRemunerado).map
                      fun r => oCero r.tiempo).sum) % 60 }) := by
  match jornadasDelDia, hvarias with
  | [], h => simp at h
  | [_], h => simp at h
  | primera :: segunda :: resto, _ =>
    rw [procesarGrupo_varios]
    refine ⟨primera, nuevaJornada operarioId idNuevo (normalizarFecha primera.fecha)
      (registrosCombinados (primera :: segunda :: resto)), _, rfl, rfl, rfl, rfl, rfl, rfl, rfl,
      rfl, rfl, rfl, rfl, ?_⟩
    intro buscar
    exact tiempoEfectivoAPagar_sin_horas_suma _ (Or.inl rfl) rfl

/-- C28 at the three jornadas of one day, which all have `horaInicio` and
`horaFin`: the jornada returned for them has neither, and with a record of
50 minutes behind each identifier its effective payable time is 3 hours 20
minutes, the sum of the four activities. -/
theorem C28_consolidated_without_boundaries_witness :
    (∀ j ∈ tresJornadasMismoDia, j.horaInicio ≠ none ∧ j.horaFin ≠ none)
      ∧ (consolidarJornadasDuplicadas "op1" 10 tresJornadasMismoDia).resultado.map
          (fun j => (j.horaInicio, j.horaFin)) = [(none, none)]
      ∧ (consolidarJornadasDuplicadas "op1" 10 tresJornadasMismoDia).resultado.map
          (fun j => tiempoEfectivoAPagar (poblar
            (fun _ => some { tipoTiempo := "Operación", tipoPermiso := none,
                             horaInicio := none, horaFin := none, tiempo := some 50 }) j))
        = [{ horas := 3, minutos := 20 }]
      ∧ ∃ primera nueva devuelta,
        tresJornadasMismoDia.head? = some primera
          ∧ (procesarGrupo "op1" 10 tresJornadasMismoDia).operaciones
              = tresJornadasMismoDia.map (fun j => Operacion.findByIdAndDelete j._id)
                ++ [Operacion.crear nueva]
          ∧ (procesarGrupo "op1" 10 tresJornadasMismoDia).jornadas = [devuelta]
          ∧ nueva.horaInicio = none ∧ nueva.horaFin = none :=
  ⟨by decide, by decide, by decide,
    match C28_consolidated_without_boundaries "op1" 10 tresJornadasMismoDia (by decide) with
    | ⟨primera, nueva, devuelta, h1, h2, h3, _, _, _, _, h4, h5, _⟩ =>
      ⟨primera, nueva, devuelta, h1, h2, h3, h4, h5⟩⟩

end JornadaController
